import Mathlib

/-!
# contrib/database/sql: driver registry and DBM comment propagation

A shallow embedding of `contrib/database/sql/sql.go`. The package-level
variable `registeredDrivers` becomes an explicit state that every operation
takes and returns. The registry's `sync.RWMutex` only serialises the map
accesses, so the sequential model has no lock. Calls to the logger are left
out: they change no state.
-/

namespace reflect

/-- A non-nil `driver.Driver` interface value: its dynamic type (what
`reflect.TypeOf` reports) and the identity of the value behind it. -/
structure DriverValue where
  typ : String
  id : Nat
deriving DecidableEq, Repr

/-- A `driver.Driver` interface value; `none` is the nil interface. -/
abbrev Driver := Option DriverValue

/-- `reflect.TypeOf`: the dynamic type of an interface value, nil for nil. -/
def TypeOf (driver : Driver) : Option String :=
  driver.map DriverValue.typ

end reflect

namespace sqltrace

open reflect (Driver DriverValue)

/-- Modelled from the spec: `tracer.DBMPropagationMode` and its constants are
declared in the tracer package, which is not in src; the spec names the three
modes disabled, service and full. -/
inductive DBMPropagationMode where
  | disabled
  | service
  | full
deriving DecidableEq, Repr

/-- Modelled from the spec: the `config` struct is declared in option.go,
which is not in src. sql.go reads `dbmPropagationMode` and `dsn`; the spec
lists the service name and the custom tag overrides next to them. -/
structure config where
  serviceName : String
  dsn : String
  tags : List (String × String)
  dbmPropagationMode : DBMPropagationMode
deriving DecidableEq, Repr

/-- `RegisterOption` (and `Option`, the same type): a function that updates a
config in place, here a function from the config to the updated config. -/
abbrev RegisterOption := config → config

/-- The `driverRegistry` struct: three Go maps, each a partial function. The
key of `keys` is a `reflect.Type`, which is nil for a nil driver. -/
structure driverRegistry where
  keys : Option String → Option String
  drivers : String → Option Driver
  configs : String → Option config

/-- The initial value of `registeredDrivers`: three empty maps. -/
def emptyRegistry : driverRegistry :=
  { keys := fun _ => none, drivers := fun _ => none, configs := fun _ => none }

/-- `isRegistered`: whether `configs` has an entry for the name. -/
def driverRegistry.isRegistered (d : driverRegistry) (name : String) : Bool :=
  (d.configs name).isSome

/-- `add`: no change when the name is registered, otherwise the three maps
each get the new entry. -/
def driverRegistry.add (d : driverRegistry) (name : String) (driver : Driver)
    (cfg : config) : driverRegistry :=
  if d.isRegistered name then d
  else
    { keys := Function.update d.keys (reflect.TypeOf driver) (some name)
      drivers := Function.update d.drivers name (some driver)
      configs := Function.update d.configs name (some cfg) }

/-- `name`: the two-value lookup `d.keys[reflect.TypeOf(driver)]`. -/
def driverRegistry.name (d : driverRegistry) (driver : Driver) : String × Bool :=
  match d.keys (reflect.TypeOf driver) with
  | some n => (n, true)
  | none => ("", false)

/-- `driver`: the two-value lookup `d.drivers[name]`. -/
def driverRegistry.driver (d : driverRegistry) (name : String) : Driver × Bool :=
  match d.drivers name with
  | some drv => (drv, true)
  | none => (none, false)

/-- `config`: the two-value lookup `d.configs[name]`; the nil pointer of a
missing entry is `none`. -/
def driverRegistry.config (d : driverRegistry) (name : String) : Option config × Bool :=
  match d.configs name with
  | some cfg => (some cfg, true)
  | none => (none, false)

/-- The method `unregister`: reads `d.drivers[name]` (nil when missing) and
deletes one entry from each map. -/
def driverRegistry.unregister (d : driverRegistry) (name : String) : driverRegistry :=
  let driver : Driver := (d.drivers name).getD none
  { keys := Function.update d.keys (reflect.TypeOf driver) none
    configs := Function.update d.configs name none
    drivers := Function.update d.drivers name none }

/-- The list `unsupportedDrivers` of `checkDBMPropagation`. -/
def unsupportedDrivers : List String := ["sqlserver", "oracle"]

/-- The loop of the closure `fullModeSupported` over the drivers left. -/
def fullModeSupportedLoop (driverName : String) : List String → Bool
  | [] => true
  | dr :: rest => if dr = driverName then false else fullModeSupportedLoop driverName rest

/-- The closure `fullModeSupported` of `checkDBMPropagation`. -/
def fullModeSupported (driverName : String) : Bool :=
  fullModeSupportedLoop driverName unsupportedDrivers

/-- `checkDBMPropagation`: full mode on an unsupported driver becomes service
mode (the warning it logs is left out). -/
def checkDBMPropagation (cfg : config) (driverName : String) : config :=
  if cfg.dbmPropagationMode = DBMPropagationMode.full ∧ ¬ fullModeSupported driverName = true then
    { cfg with dbmPropagationMode := DBMPropagationMode.service }
  else cfg

/-- `processOptions`: the options run in order, then the propagation check. -/
def processOptions (cfg : config) (driverName : String) (opts : List RegisterOption) : config :=
  checkDBMPropagation (opts.foldl (fun c fn => fn c) cfg) driverName

/-- How a call ends: it returns, or it panics with a message. -/
inductive Outcome where
  | returned
  | panicked (msg : String)
deriving DecidableEq, Repr

/-- `Register` on the registry `registeredDrivers`. The function `defaults` of
option.go is not in src: `defaults driverName rc` stands for the config that
`cfg := new(config); defaults(cfg, driverName, rc)` leaves in `cfg`. -/
def Register (defaults : String → Option config → config) (registeredDrivers : driverRegistry)
    (driverName : String) (driver : Driver) (opts : List RegisterOption) :
    Outcome × driverRegistry :=
  match driver with
  | none => (Outcome.panicked "sqltrace: Register driver is nil", registeredDrivers)
  | some _ =>
    if registeredDrivers.isRegistered driverName then (Outcome.returned, registeredDrivers)
    else
      let cfg := processOptions (defaults driverName none) driverName opts
      (Outcome.returned, registeredDrivers.add driverName driver cfg)

/-- The package-level `unregister`: the method, guarded by `isRegistered`. -/
def unregister (registeredDrivers : driverRegistry) (name : String) : driverRegistry :=
  if registeredDrivers.isRegistered name then registeredDrivers.unregister name
  else registeredDrivers

/-- Modelled from the spec: the option `WithDBMPropagation` of option.go, not
in src; it sets the propagation mode of the config. -/
def WithDBMPropagation (mode : DBMPropagationMode) : RegisterOption :=
  fun cfg => { cfg with dbmPropagationMode := mode }

/-- Modelled from the spec: one possible `defaults`, used at concrete inputs.
The doc comment of `Register` gives the default service name (the driver name
suffixed with ".db"); a registered config, when given, is taken over. -/
def exampleDefaults (driverName : String) (rc : Option config) : config :=
  match rc with
  | some c => c
  | none =>
    { serviceName := driverName ++ ".db", dsn := "", tags := [],
      dbmPropagationMode := DBMPropagationMode.disabled }

/-- The reference definition of the propagation check, in the spec's words: in
full mode with the driver name "sqlserver" or "oracle" the mode becomes
service, in every other case the config is returned as it is. -/
def checkDBMPropagationSpec (cfg : config) (driverName : String) : config :=
  if cfg.dbmPropagationMode = DBMPropagationMode.full
      ∧ (driverName = "sqlserver" ∨ driverName = "oracle") then
    { cfg with dbmPropagationMode := DBMPropagationMode.service }
  else cfg

/-! ## The comment injector

`conn.go` (`injectComments`, the traced `Prepare`, `Query` and `Exec`) and the
tracer's comment carrier are not in src: only `propagation_test.go` and the
struct literal of `traceParams` in `sql.go` are. The definitions of this
section follow section 4.4 of the spec and the expected strings of the test.
-/

/-- The query kinds `QueryTypeConnect`, `QueryTypePrepare`, `QueryTypeQuery`
and `QueryTypeExec`, the values of the tag `sql.query_type`. -/
inductive QueryType where
  | connect
  | prepare
  | query
  | exec
deriving DecidableEq, Repr

/-- The struct `traceParams` as `Connect` builds it in sql.go. -/
structure traceParams where
  driverName : String
  cfg : config
  meta : List (String × String)
deriving DecidableEq, Repr

/-- Modelled from the spec: the span that is active when a traced call is
made (the tracer is not in src): its trace id, its span id and whether the
trace is sampled. -/
structure SpanContext where
  traceID : Nat
  spanID : Nat
  sampled : Bool
deriving DecidableEq, Repr

/-- Modelled from the spec: what a traced call reads besides its
`traceParams` (tracer and conn.go are not in src): the tracer's env, service
and version, whether peer-service defaults are enabled, the active span if
any, and the span id generated for the span of the call itself. -/
structure CallContext where
  env : String
  service : String
  version : String
  peerServiceDefaults : Bool
  activeSpan : Option SpanContext
  spanID : Nat
deriving DecidableEq, Repr

/-- Modelled from the spec: the tag key `ext.PeerService` (package ext is not
in src, nor is the value of the key: only that it is not `ext.DBName`
matters here). -/
def ext.PeerService : String := "peer.service"

/-- Modelled from the spec: the tag key `ext.DBName` (package ext is not in
src, nor is the value of the key). -/
def ext.DBName : String := "db.name"

/-- Modelled from the spec: the option `WithCustomTag` of option.go, not in
src; it sets one custom tag of the config. -/
def WithCustomTag (key value : String) : RegisterOption :=
  fun cfg => { cfg with tags := (key, value) :: cfg.tags.filter (fun t => t.1 ≠ key) }

/-- The custom tag of a config under a key, if one is set. -/
def customTag (cfg : config) (key : String) : Option String :=
  cfg.tags.lookup key

/-- Modelled from the spec: a lowercase hexadecimal digit of the
`traceparent` field (the tracer's comment carrier is not in src), for a
number below 16. -/
def hexDigit (n : Nat) : Char :=
  "0123456789abcdef".data.getD n '0'

/-- Modelled from the spec: the `w` lowest hexadecimal digits of `n`, most
significant first (the tracer's comment carrier is not in src). -/
def hexChars : Nat → Nat → List Char
  | 0, _ => []
  | w + 1, n => hexChars w (n / 16) ++ [hexDigit (n % 16)]

/-- Modelled from the spec: the fixed-width lowercase hexadecimal text of an
id in the `traceparent` field (the tracer's comment carrier is not in src). -/
def hex (w n : Nat) : String :=
  String.mk (hexChars w n)

/-- Modelled from the spec: the value of the `dddbs` field (conn.go is not in
src). It defaults to `<driverName>.db` and a peer-service tag or custom tag
overrides it (section 4.4). Section 8 lets the override take effect only when
peer-service defaults are enabled: that is how the custom tag `ext.DBName` is
read, as in the cases prepare-service-peer-service and its
defaults-not-enabled twin of `TestDBMPropagation`. For the custom tag
`ext.PeerService` the definition follows the expected string of the case
query-service-peer-service of the test and not the words of section 8: that
case passes no tracer option and expects the tag as `dddbs`, so the tag
overrides whatever the setting of the defaults is. Neither the spec nor the
test says which tag is used when both are set; `ext.PeerService` is read
first. -/
def dbServiceName (tp : traceParams) (c : CallContext) : String :=
  match customTag tp.cfg ext.PeerService with
  | some v => v
  | none =>
    match c.peerServiceDefaults, customTag tp.cfg ext.DBName with
    | true, some v => v
    | _, _ => tp.driverName ++ ".db"

/-- Modelled from the spec: the value of the `traceparent` field (the
tracer's comment carrier is not in src): version 00, the 32-digit trace id of
the active span, the 16-digit id of the span of the call, and two flag digits
with the sampled flag in the low bit. -/
def traceparent (s : SpanContext) (spanID : Nat) : String :=
  "00-" ++ hex 32 s.traceID ++ "-" ++ hex 16 spanID ++ "-" ++ hex 2 (if s.sampled then 1 else 0)

/-- Modelled from the spec: the four fields of the service-mode comment, in
their fixed order (the tracer's comment carrier is not in src). -/
def serviceFields (tp : traceParams) (c : CallContext) : List (String × String) :=
  [("dddbs", dbServiceName tp c), ("dde", c.env), ("ddps", c.service), ("ddpv", c.version)]

/-- Modelled from the spec: the trace context a call injects, if any (conn.go
is not in src). The gate of the spec's state machine: the mode is full, the
operation is query or exec, and an active span exists. -/
def injectedTraceContext (tp : traceParams) (c : CallContext) (k : QueryType) :
    Option SpanContext :=
  match tp.cfg.dbmPropagationMode, k with
  | DBMPropagationMode.full, QueryType.query => c.activeSpan
  | DBMPropagationMode.full, QueryType.exec => c.activeSpan
  | _, _ => none

/-- Modelled from the spec: the fields of the comment of one call (conn.go
and the tracer's comment carrier are not in src). No comment in disabled mode
and on connect, which sends no SQL text; the service fields otherwise,
followed by `traceparent` when trace context is injected. -/
def commentFields (tp : traceParams) (c : CallContext) (k : QueryType) :
    List (String × String) :=
  match tp.cfg.dbmPropagationMode, k with
  | DBMPropagationMode.disabled, _ => []
  | _, QueryType.connect => []
  | _, _ =>
    serviceFields tp c ++
      (match injectedTraceContext tp c k with
       | some s => [("traceparent", traceparent s c.spanID)]
       | none => [])

/-- Modelled from the spec: the fields that are written, those with a value
that is not empty (the tracer's comment carrier is not in src). -/
def emittedFields (fields : List (String × String)) : List (String × String) :=
  fields.filter (fun f => f.2 ≠ "")

/-- Modelled from the spec: one field as it is written, `key='value'` (the
tracer's comment carrier is not in src). -/
def renderField (f : String × String) : String :=
  f.1 ++ "='" ++ f.2 ++ "'"

/-- Modelled from the spec: the written fields joined by commas (the
tracer's comment carrier is not in src). -/
def joinFields : List String → String
  | [] => ""
  | [x] => x
  | x :: y :: rest => x ++ "," ++ joinFields (y :: rest)

/-- Modelled from the spec: the comment prefix for a list of fields (the
tracer's comment carrier is not in src): empty when no field is written,
otherwise the fields between `/*` and `*/` and one space. -/
def renderComment (fields : List (String × String)) : String :=
  match emittedFields fields with
  | [] => ""
  | f :: fs => "/*" ++ joinFields ((f :: fs).map renderField) ++ "*/ "

/-- Modelled from the spec: the prefix put before the SQL text of a call
(conn.go is not in src). -/
def commentPrefix (tp : traceParams) (c : CallContext) (k : QueryType) : String :=
  renderComment (commentFields tp c k)

/-- Modelled from the spec: `injectComments` of conn.go, which is not in src:
the SQL text handed to the underlying driver, the prefix and then the
original text. -/
def injectComments (tp : traceParams) (c : CallContext) (k : QueryType) (query : String) :
    String :=
  commentPrefix tp c k ++ query

/-- Modelled from the spec: what `tags[keyDBMTraceInjected]` holds on the span
of a call (conn.go is not in src): `some true` for a query or an exec in full
mode, `none` (the key is absent) for a prepare and in every other mode, as
section 4.4 says and as the seven cases of `TestDBMTraceContextTagging`
expect. What a call with no active span does is left open by the spec
(section 9); the tag does not depend on it here. -/
def dbmTraceInjectedTag (tp : traceParams) (_ : CallContext) (k : QueryType) : Option Bool :=
  match tp.cfg.dbmPropagationMode, k with
  | DBMPropagationMode.full, QueryType.query => some true
  | DBMPropagationMode.full, QueryType.exec => some true
  | _, _ => none

/-- The setting of `TestDBMPropagation`: driver name "test", the given mode,
tracer service "test-service", env "test-env", version "1.0.0". -/
def testParams (mode : DBMPropagationMode) : traceParams :=
  { driverName := "test",
    cfg := { serviceName := "test.db", dsn := "dn", tags := [], dbmPropagationMode := mode },
    meta := [] }

/-- The call context of `TestDBMPropagation`: a sampled parent span with trace
id 1 and span id 1, and 42 as the id generated for the span of the call. -/
def testContext : CallContext :=
  { env := "test-env", service := "test-service", version := "1.0.0",
    peerServiceDefaults := false,
    activeSpan := some { traceID := 1, spanID := 1, sampled := true },
    spanID := 42 }

/-- The call parameters of the test with one custom tag given to `Open`. -/
def testParamsWithTag (mode : DBMPropagationMode) (key value : String) : traceParams :=
  { testParams mode with cfg := WithCustomTag key value (testParams mode).cfg }

/-- The call context of the test with peer-service defaults enabled. -/
def testContextPeerDefaults : CallContext :=
  { testContext with peerServiceDefaults := true }

/-- The same call parameters with another propagation mode. -/
def withMode (tp : traceParams) (mode : DBMPropagationMode) : traceParams :=
  { tp with cfg := { tp.cfg with dbmPropagationMode := mode } }

/-- The call context of the test with no env set on the tracer. -/
def testContextNoEnv : CallContext :=
  { testContext with env := "" }

/-- The call context of the test with a parent span that is not sampled. -/
def testContextUnsampled : CallContext :=
  { testContext with activeSpan := some { traceID := 1, spanID := 1, sampled := false } }

/-- The span id of the call is generated anew by the tracer: it is not the id
of the active span, and both are 64-bit ids. -/
def freshSpanID (c : CallContext) (s : SpanContext) : Prop :=
  c.spanID ≠ s.spanID ∧ c.spanID < 2 ^ 64 ∧ s.spanID < 2 ^ 64

/-- The call context of the test with no env, service and version set on the
tracer. -/
def testContextNoFields : CallContext :=
  { testContext with env := "", service := "", version := "" }

/-! ## Runs of registry operations -/

/-- One call on the registry through the package functions: `Register` or the
package-level `unregister`. -/
inductive RegistryCall where
  | Register (driverName : String) (driver : Driver) (opts : List RegisterOption)
  | unregister (name : String)

/-- The registry after one call of `Register` or `unregister`. -/
def runCall (defaults : String → Option config → config) (r : driverRegistry) :
    RegistryCall → driverRegistry
  | RegistryCall.Register driverName driver opts => (Register defaults r driverName driver opts).2
  | RegistryCall.unregister name => unregister r name

/-- The registry after a sequence of calls, in order. -/
def runCalls (defaults : String → Option config → config) (r : driverRegistry)
    (calls : List RegistryCall) : driverRegistry :=
  calls.foldl (runCall defaults) r

/-- No driver stored in the registry has the dynamic type of `driver`. -/
def typeIsFresh (r : driverRegistry) (driver : Driver) : Prop :=
  ∀ (n : String) (d : Driver), r.drivers n = some d → reflect.TypeOf d ≠ reflect.TypeOf driver

/-- A sequence of calls in which every `Register` that takes effect (non-nil
driver, name not registered) brings a driver whose dynamic type no stored
driver has at that time. -/
def distinctTypes (defaults : String → Option config → config) :
    driverRegistry → List RegistryCall → Prop
  | _, [] => True
  | r, call :: rest =>
    (match call with
      | RegistryCall.Register driverName driver _ =>
        driver ≠ none → r.isRegistered driverName = false → typeIsFresh r driver
      | RegistryCall.unregister _ => True)
    ∧ distinctTypes defaults (runCall defaults r call) rest

/-- Identity lookup agrees with name lookup: the driver stored under a
registered name leads back to that name. -/
def lookupsAgree (r : driverRegistry) : Prop :=
  ∀ (n : String) (d : Driver), r.isRegistered n = true → r.driver n = (d, true) →
    r.name d = (n, true)

/-- One step on the registry through its methods: `add` with a non-nil driver,
or the method `unregister`. -/
inductive RegistryStep where
  | add (name : String) (driver : DriverValue) (cfg : config)
  | unregister (name : String)

/-- The registry after one method call. -/
def runStep (r : driverRegistry) : RegistryStep → driverRegistry
  | RegistryStep.add name driver cfg => r.add name (some driver) cfg
  | RegistryStep.unregister name => r.unregister name

/-- The registry after a sequence of method calls, in order. -/
def runSteps (r : driverRegistry) (steps : List RegistryStep) : driverRegistry :=
  steps.foldl runStep r

/-- The invariant of the three maps: `drivers` and `configs` have the same
names, and every entry `keys[T] = n` names a registered `n` whose stored driver
has the type `T`. -/
def registryInvariant (r : driverRegistry) : Prop :=
  (∀ n : String, (r.drivers n).isSome = (r.configs n).isSome)
    ∧ ∀ (T : Option String) (n : String), r.keys T = some n →
        r.isRegistered n = true ∧ ∃ d : Driver, r.drivers n = some d ∧ reflect.TypeOf d = T

/-- The invariant behind agreeing lookups: `drivers` and `configs` have the
same names, and the type of every stored driver is a key that leads to the
name the driver is stored under. -/
def agreeInvariant (r : driverRegistry) : Prop :=
  (∀ n : String, (r.drivers n).isSome = (r.configs n).isSome)
    ∧ ∀ (n : String) (d : Driver), r.drivers n = some d → r.keys (reflect.TypeOf d) = some n

/-- An option whose effect on the propagation mode does not depend on the
mode it finds: it keeps the mode, or it sets it to a fixed value. -/
def setsOrKeepsMode (fn : RegisterOption) : Prop :=
  (∀ c : config, (fn c).dbmPropagationMode = c.dbmPropagationMode)
    ∨ ∃ m : DBMPropagationMode, ∀ c : config, (fn c).dbmPropagationMode = m

/-- An option of the type `func(*config)` that flips the mode between
disabled and service. -/
def toggleMode : RegisterOption :=
  fun cfg =>
    if cfg.dbmPropagationMode = DBMPropagationMode.disabled then
      { cfg with dbmPropagationMode := DBMPropagationMode.service }
    else { cfg with dbmPropagationMode := DBMPropagationMode.disabled }

/-! ## The traced connector -/

/-- An `error` value: the message of the error; `none` is nil. -/
abbrev GoError := Option String

/-- A `driver.Conn` interface value: the identity of the connection; `none`
is nil. -/
abbrev Conn := Option Nat

/-- A `context.Context` value, by its identity. -/
abbrev Context := Nat

/-- The text of a query kind, `string(QueryTypeConnect)` and the like. -/
def QueryType.str : QueryType → String
  | QueryType.connect => "connect"
  | QueryType.prepare => "prepare"
  | QueryType.query => "query"
  | QueryType.exec => "exec"

/-- A `driver.Connector`: either the `*dsnConnector` of sql.go, with its dsn,
its driver and the `Open` method of that driver, or a connector of another
type, with its `Connect` method. -/
inductive Connector where
  | dsnConnector (dsn : String) (driver : DriverValue) (driverOpen : String → Conn × GoError)
  | other (connect : Context → Conn × GoError)

/-- The method `Connect` of a connector; the one of `dsnConnector` ignores
the context and opens the dsn with its driver. -/
def Connector.Connect : Connector → Context → Conn × GoError
  | Connector.dsnConnector dsn _ driverOpen, _ => driverOpen dsn
  | Connector.other connect, ctx => connect ctx

/-- The struct `tracedConnector`. -/
structure tracedConnector where
  connector : Connector
  driverName : String
  cfg : config

/-- The struct `TracedConn` as `Connect` builds it: the wrapped connection and
the trace parameters. -/
structure TracedConn where
  Conn : Conn
  traceParams : traceParams
deriving DecidableEq, Repr

/-- What `Connect` does besides returning, in order. -/
inductive ConnectEvent where
  | startTraceTask (ctx : Context) (name : String)
  | connectorConnect (ctx : Context)
  | tryTrace (ctx : Context) (qtype : QueryType) (query : String) (err : GoError)
  | endTraceTask
deriving DecidableEq, Repr

/-- What a call of `Connect` returns, with the record of what it did. -/
structure ConnectResult where
  conn : Option TracedConn
  err : GoError
  events : List ConnectEvent
deriving DecidableEq, Repr

/-- The contexts with which the wrapped connector's `Connect` was called. -/
def connectorCalls (events : List ConnectEvent) : List Context :=
  events.filterMap (fun e =>
    match e with
    | ConnectEvent.connectorConnect ctx => some ctx
    | _ => none)

/-- `tracedConnector.Connect`. `internal.ParseDSN` and `startTraceTask` are
not in src and are taken as they come: `ParseDSN driverName dsn` is the pair
of metadata and error, `startTraceTask ctx name` the context of the task. -/
def tracedConnector.Connect (ParseDSN : String → String → List (String × String) × GoError)
    (startTraceTask : Context → String → Context) (t : tracedConnector) (ctx : Context) :
    ConnectResult :=
  let tp : traceParams := { driverName := t.driverName, cfg := t.cfg, meta := [] }
  let tp : traceParams :=
    match t.connector with
    | Connector.dsnConnector dsn _ _ => { tp with meta := (ParseDSN t.driverName dsn).1 }
    | Connector.other _ =>
      if t.cfg.dsn ≠ "" then { tp with meta := (ParseDSN t.driverName t.cfg.dsn).1 } else tp
  let ctx1 := startTraceTask ctx QueryType.connect.str
  let r := t.connector.Connect ctx1
  let events := [ConnectEvent.startTraceTask ctx QueryType.connect.str,
    ConnectEvent.connectorConnect ctx1,
    ConnectEvent.tryTrace ctx1 QueryType.connect "" r.2,
    ConnectEvent.endTraceTask]
  match r.2 with
  | some e => { conn := none, err := some e, events := events }
  | none => { conn := some { Conn := r.1, traceParams := tp }, err := none, events := events }

/-- A DSN parser that always fails. -/
def failingParseDSN : String → String → List (String × String) × GoError :=
  fun _ _ => ([], some "invalid dsn")

/-- A DSN parser that always succeeds with one entry. -/
def workingParseDSN : String → String → List (String × String) × GoError :=
  fun _ dsn => ([("db.name", dsn)], none)

/-- The connector of the test: the `dsnConnector` of the mock driver, whose
`Open` returns connection 7 and no error. -/
def testConnector : tracedConnector :=
  { connector := Connector.dsnConnector "dn" ⟨"*internal.MockDriver", 1⟩ (fun _ => (some 7, none)),
    driverName := "test",
    cfg := (testParams DBMPropagationMode.disabled).cfg }

/-- A connector whose driver fails to open. -/
def failingConnector : tracedConnector :=
  { connector := Connector.other (fun _ => (none, some "connection refused")),
    driverName := "test",
    cfg := (testParams DBMPropagationMode.disabled).cfg }

end sqltrace

/-!
# internal/appsec/dyngo/instrumentation/sharedsec: the user ID operation

A shallow embedding of `shared.go`. The package dyngo (operations, listeners,
dispatch) is not in src; its part in a user ID operation follows section 4.1
of the spec.
-/

namespace sharedsec

open sqltrace (GoError)

/-- The struct `UserIDOperationArgs`. -/
structure UserIDOperationArgs where
  UserID : String
deriving DecidableEq, Repr

/-- The empty struct `UserIDOperationRes`. -/
inductive UserIDOperationRes where
  | mk
deriving DecidableEq, Repr

/-- Modelled from the spec: a listener of the finish of a user ID operation
(dyngo is not in src), as what it does to the `Error` field of the operation
it is run for. -/
abbrev FinishListener := UserIDOperationRes → GoError → GoError

/-- Modelled from the spec: a listener of the start of a user ID operation,
`OnUserIDOperationStart` (dyngo is not in src): given the arguments and the
`Error` field it finds, the `Error` field it leaves and the finish listeners
it registers on the operation. -/
abbrev StartListener := UserIDOperationArgs → GoError → GoError × List FinishListener

/-- Modelled from the spec: one node of the operation tree (dyngo is not in
src), as far as user ID operations see it: the listeners registered on it. -/
structure OperationNode where
  onStart : List StartListener
  onFinish : List FinishListener

/-- Modelled from the spec: a `dyngo.Operation` value (dyngo is not in src):
the node of the operation and the nodes of its ancestors, nearest first; the
empty list is the nil operation. -/
abbrev Operation := List OperationNode

/-- Modelled from the spec: the finish state of an operation (dyngo is not in
src): not started, started, finished. -/
inductive Lifecycle where
  | notStarted
  | started
  | finished
deriving DecidableEq, Repr

/-- The struct `UserIDOperation`: the embedded `dyngo.Operation`, with its
finish state, and the field `Error`. -/
structure UserIDOperation where
  Operation : Operation
  lifecycle : Lifecycle
  Error : GoError

/-- Modelled from the spec: `dyngo.NewOperation` (dyngo is not in src): a new
node with no listener under the given parent. -/
def NewOperation (parent : Operation) : Operation :=
  { onStart := [], onFinish := [] } :: parent

/-- Modelled from the spec: the start listeners a dispatch walks through
(dyngo is not in src): those of the operation, then those of its ancestors. -/
def startListeners (op : Operation) : List StartListener :=
  (op.map OperationNode.onStart).flatten

/-- Modelled from the spec: the finish listeners a dispatch walks through
(dyngo is not in src): those of the operation, in registration order, then
those of its ancestors. -/
def finishListeners (op : Operation) : List FinishListener :=
  (op.map OperationNode.onFinish).flatten

/-- Modelled from the spec: the start listeners run in order on the `Error`
field and the list of finish listeners registered so far (dyngo is not in
src). -/
def dispatchStart (args : UserIDOperationArgs) (ls : List StartListener)
    (st : GoError × List FinishListener) : GoError × List FinishListener :=
  ls.foldl (fun st l => ((l args st.1).1, st.2 ++ (l args st.1).2)) st

/-- Modelled from the spec: the finish listeners run in order on the `Error`
field (dyngo is not in src). -/
def dispatchFinish (res : UserIDOperationRes) (fs : List FinishListener) (e : GoError) : GoError :=
  fs.foldl (fun e f => f res e) e

/-- Modelled from the spec: finish listeners registered on the node of an
operation, after those it has (dyngo is not in src). -/
def registerFinish (fs : List FinishListener) : Operation → Operation
  | [] => []
  | node :: rest => { node with onFinish := node.onFinish ++ fs } :: rest

/-- Modelled from the spec: `dyngo.StartOperation` for a user ID operation
(dyngo is not in src): the operation is started and every start listener of
the operation and of its ancestors is run for it. -/
def StartOperation (op : UserIDOperation) (args : UserIDOperationArgs) : UserIDOperation :=
  let r := dispatchStart args (startListeners op.Operation) (op.Error, [])
  { Operation := registerFinish r.2 op.Operation, lifecycle := Lifecycle.started, Error := r.1 }

/-- Modelled from the spec: `dyngo.FinishOperation` for a user ID operation
(dyngo is not in src): every finish listener is run for it, then the
operation is finished. -/
def FinishOperation (op : UserIDOperation) (res : UserIDOperationRes) : UserIDOperation :=
  { op with
    lifecycle := Lifecycle.finished,
    Error := dispatchFinish res (finishListeners op.Operation) op.Error }

/-- The operation `op` of `ExecuteUserIDOperation` when the function returns. -/
def executedOperation (parent : Operation) (args : UserIDOperationArgs) : UserIDOperation :=
  let op : UserIDOperation :=
    { Operation := NewOperation parent, lifecycle := Lifecycle.notStarted, Error := none }
  FinishOperation (StartOperation op args) UserIDOperationRes.mk

/-- `ExecuteUserIDOperation`: the `Error` field of the operation after its
start and its finish. -/
def ExecuteUserIDOperation (parent : Operation) (args : UserIDOperationArgs) : GoError :=
  (executedOperation parent args).Error

/-- A finish listener that leaves the `Error` field as it finds it. -/
def finishKeepsError (f : FinishListener) : Prop :=
  ∀ (res : UserIDOperationRes) (e : GoError), f res e = e

/-- A start listener that leaves the `Error` field as it finds it. -/
def startKeepsError (l : StartListener) : Prop :=
  ∀ (args : UserIDOperationArgs) (e : GoError), (l args e).1 = e

/-- A start listener that registers only finish listeners that leave the
`Error` field as they find it. -/
def registersKeepers (l : StartListener) : Prop :=
  ∀ (args : UserIDOperationArgs) (e : GoError), ∀ f ∈ (l args e).2, finishKeepsError f

/-- What `ctx.Value(instrumentation.ContextKey{})` holds when it is not nil:
a `dyngo.Operation` or a value of another type. -/
inductive ContextValue where
  | operation (op : Operation)
  | other

/-- A `context.Context` as `MonitorUser` reads it: the value under the
instrumentation context key, `none` when there is none. -/
structure Context where
  instrumentationValue : Option ContextValue

/-- The user ID operation that a call of `MonitorUser` runs, if it runs one. -/
def monitoredOperation (ctx : Context) (userID : String) : Option UserIDOperation :=
  match ctx.instrumentationValue with
  | some (ContextValue.operation parent) => some (executedOperation parent { UserID := userID })
  | _ => none

/-- `MonitorUser`: the result of `ExecuteUserIDOperation` when the context
holds an operation, nil otherwise (the error it logs is left out). -/
def MonitorUser (ctx : Context) (userID : String) : GoError :=
  match ctx.instrumentationValue with
  | some (ContextValue.operation parent) => ExecuteUserIDOperation parent { UserID := userID }
  | _ => none

/-- A start listener that blocks the user "blocked-user" with a fixed error
and lets every other user through. -/
def blockingListener : StartListener :=
  fun args e => (if args.UserID = "blocked-user" then some "user blocked" else e, [])

/-- A root operation with one listener that blocks one user. -/
def monitoredRoot : Operation :=
  [{ onStart := [blockingListener], onFinish := [] }]

/-- The listeners run in order on the `Error` field, each given as what it
does to the field. -/
def runAll (runs : List (GoError → GoError)) (e : GoError) : GoError :=
  runs.foldl (fun e g => g e) e

/-- The listener runs of one call of `ExecuteUserIDOperation`, in order, each
as what it does to the `Error` field of the operation: the start listeners of
the ancestors, then the finish listeners registered during the start and the
finish listeners of the ancestors. -/
def listenerRuns (parent : Operation) (args : UserIDOperationArgs) : List (GoError → GoError) :=
  (startListeners parent).map (fun l e => (l args e).1)
    ++ ((dispatchStart args (startListeners parent) (none, [])).2
          ++ finishListeners parent).map (fun f e => f UserIDOperationRes.mk e)

/-- A start listener that blocks every user with a fixed error. -/
def denyAllListener : StartListener :=
  fun _ _ => (some "user blocked", [])

/-- A start listener that clears the `Error` field. -/
def clearingListener : StartListener :=
  fun _ _ => (none, [])

/-- A finish listener that blocks with a fixed error. -/
def blockingFinishListener : FinishListener :=
  fun _ _ => some "user blocked"

/-- A root operation where one listener blocks and a later one clears the
field. -/
def setThenClearRoot : Operation :=
  [{ onStart := [denyAllListener, clearingListener], onFinish := [] }]

/-- A root operation with one finish listener that blocks. -/
def finishBlockingRoot : Operation :=
  [{ onStart := [], onFinish := [blockingFinishListener] }]

end sharedsec

/-!
# internal/appsec/listener/graphql: the all-resolvers aggregate

A shallow embedding of the field-start listener of `NewWAFEventListener`.
The mutex `allResolversMu` makes the updates of the map run one after the
other; the model is the sequence of field starts in the order in which they
take the lock.
-/

namespace listener

/-- The arguments of a field, a `map[string]any`, as a list of entries. -/
abbrev Arguments := List (String × String)

/-- The struct `graphqlsec.FieldArguments`, with the three fields that
`ResolveFieldDidStart` fills. -/
structure FieldArguments where
  TypeName : String
  FieldName : String
  Arguments : Arguments
deriving DecidableEq, Repr

/-- The variable `allResolvers`, a `map[string][]map[string]any`; `none` is
the nil map it starts as. -/
abbrev AllResolvers := Option (String → Option (List Arguments))

/-- The constant `graphQLServerAllResolversAddr`. -/
def graphQLServerAllResolversAddr : String := "graphql.server.all_resolvers"

/-- The constant `graphQLServerResolverAddr`. -/
def graphQLServerResolverAddr : String := "graphql.server.resolver"

/-- `SupportsAddress`: membership in the two supported addresses. -/
def SupportsAddress (addr : String) : Bool :=
  addr = graphQLServerAllResolversAddr ∨ addr = graphQLServerResolverAddr

/-- The read `allResolvers[name]`: the nil slice for a nil map and for a
missing key. -/
def entries (allResolvers : AllResolvers) (name : String) : List Arguments :=
  match allResolvers with
  | none => []
  | some m => (m name).getD []

/-- The field-start listener registered on a query: with the resolver address
enabled it runs the WAF on the field (`util.RunWAF` is not in src and is
taken as `runWAF`; its events go to the field operation), and for a field name
that is not empty it appends the arguments to `allResolvers[FieldName]`,
making the map first when it is nil. -/
def onFieldStart (addresses : List String) (runWAF : String → Arguments → List String)
    (allResolvers : AllResolvers) (args : FieldArguments) : AllResolvers × List String :=
  let events :=
    if graphQLServerResolverAddr ∈ addresses then runWAF args.FieldName args.Arguments else []
  if args.FieldName ≠ "" then
    let m : String → Option (List Arguments) :=
      match allResolvers with
      | none => fun _ => none
      | some m => m
    (some (Function.update m args.FieldName
      (some ((m args.FieldName).getD [] ++ [args.Arguments]))), events)
  else (allResolvers, events)

/-- The aggregate after a sequence of field starts under one query. -/
def runFieldStarts (addresses : List String) (runWAF : String → Arguments → List String)
    (allResolvers : AllResolvers) (starts : List FieldArguments) : AllResolvers :=
  starts.foldl (fun m args => (onFieldStart addresses runWAF m args).1) allResolvers

/-- The arguments of the starts that carry the given field name, in order;
none for the empty name. -/
def argumentsOf (name : String) (starts : List FieldArguments) : List Arguments :=
  (starts.filter (fun a => a.FieldName = name ∧ name ≠ "")).map FieldArguments.Arguments

end listener

/-!
# contrib/graphql-go/graphql: the resolvers installed by NewSchema

A shallow embedding of the loop of `NewSchema` over the query fields and of
`graphqlsec.StartResolverOperation`. The packages dyngo, instrumentation and
tracer are not in src: what the listeners run for a resolver operation do is
an input of the model, and what is done to the span is recorded as it is
called.
-/

namespace graphqlsec

open sqltrace (GoError)

/-- A `context.Context` as the resolver instrumentation reads it: the
operation stored under `instrumentation.ContextKey{}` (by its identity, `none`
when there is none) and the span that `tracer.SpanFromContext` finds. -/
structure Context where
  operation : Option Nat
  span : Option Nat
deriving DecidableEq, Repr

/-- The key of a tag: `instrumentation.BlockedRequestTag` or another key. -/
inductive TagKey where
  | BlockedRequestTag
  | other (name : String)
deriving DecidableEq, Repr

/-- The struct `Operation` of resolver.go: the embedded `dyngo.Operation`
(its identity and its parent), the tags and the security events it holds. -/
structure Operation where
  id : Nat
  parent : Option Nat
  tags : List (TagKey × String)
  events : List String
deriving DecidableEq, Repr

/-- The struct `OperationResult`. -/
structure OperationResult where
  Data : Option String
  Error : GoError
deriving DecidableEq, Repr

/-- Modelled from the spec: what the listeners run for one resolver operation
do (dyngo and the listeners are not in src): the `Blocking()` of every action
they hand to the data listeners of the operation, in order, and the tags and
security events they add to it. -/
structure ListenerEffects where
  actions : List Bool
  tags : List (TagKey × String)
  events : List String
deriving DecidableEq, Repr

/-- `StartResolverOperation`: the parent is the operation of the context, the
new operation holds no tag, and the new context holds the new operation.
`newID` is the identity of the operation that `dyngo.NewOperation` makes. -/
def StartResolverOperation (ctx : Context) (newID : Nat) : Context × Operation :=
  let parent := ctx.operation
  let op : Operation := { id := newID, parent := parent, tags := [], events := [] }
  ({ ctx with operation := some newID }, op)

end graphqlsec

namespace graphql

open sqltrace (GoError)

/-- The struct `graphql.ResolveParams` of the wrapped library: the context
and the other members. -/
structure ResolveParams where
  Source : String
  Args : List (String × String)
  Context : graphqlsec.Context
deriving DecidableEq, Repr

/-- How a resolver call ends: with the pair `(data, err)`, or in a panic. -/
inductive ResolveOutcome where
  | returned (data : Option String) (err : GoError)
  | panicked (msg : String)
deriving DecidableEq, Repr

/-- A `graphql.FieldResolveFn`. -/
abbrev FieldResolveFn := ResolveParams → ResolveOutcome

/-- A call on the span of the resolver. -/
inductive SpanCall where
  | SetEventSpanTags (span : Option Nat) (events : List String)
  | SetTags (span : Option Nat) (tags : List (graphqlsec.TagKey × String))
deriving DecidableEq, Repr

/-- What the model takes from outside for the resolvers: what the listeners
do for an operation with a given result, and the identity of the operation
made for a context. -/
structure Instrumentation where
  effects : graphqlsec.OperationResult → graphqlsec.ListenerEffects
  newOperation : graphqlsec.Context → Nat

/-- One run of an installed resolver: its outcome, the calls it made to the
wrapped resolver, and the calls it made on the span. -/
structure ResolveRun where
  outcome : ResolveOutcome
  resolverCalls : List ResolveParams
  spanCalls : List SpanCall
deriving DecidableEq, Repr

/-- The value of `blocked` when the deferred function reads it: the data
listener stores `a.Blocking()` at every action, so the last action decides. -/
def blockedAfter (actions : List Bool) : Bool :=
  actions.getLast?.getD false

/-- The deferred function of the installed resolver, on the named results
`data` and `err`: the events of `op.Finish` go to the span, the blocked tag is
added to the operation when `blocked` is set, and the tags of the operation go
to the span. -/
def deferredSpanCalls (inst : Instrumentation) (ctx : graphqlsec.Context)
    (op : graphqlsec.Operation) (data : Option String) (err : GoError) : List SpanCall :=
  let fx := inst.effects { Data := data, Error := err }
  let op : graphqlsec.Operation := { op with tags := op.tags ++ fx.tags, events := fx.events }
  let op : graphqlsec.Operation :=
    if blockedAfter fx.actions then
      { op with tags := op.tags ++ [(graphqlsec.TagKey.BlockedRequestTag, "true")] }
    else op
  [SpanCall.SetEventSpanTags ctx.span fx.events, SpanCall.SetTags ctx.span op.tags]

/-- The function that `NewSchema` assigns to `field.Resolve`, run on params
`p`, for the resolver the field had (`none` is a nil resolver, whose call
at graphql.go line 82 is a nil dereference of the Go runtime and
panics). -/
def resolveRun (inst : Instrumentation) (resolver : Option FieldResolveFn) (p : ResolveParams) :
    ResolveRun :=
  let started := graphqlsec.StartResolverOperation p.Context (inst.newOperation p.Context)
  let p1 : ResolveParams := { p with Context := started.1 }
  match resolver with
  | none =>
    { outcome := ResolveOutcome.panicked "runtime error: invalid memory address or nil pointer dereference", resolverCalls := [],
      spanCalls := deferredSpanCalls inst p1.Context started.2 none none }
  | some r =>
    match r p1 with
    | ResolveOutcome.returned data err =>
      { outcome := ResolveOutcome.returned data err, resolverCalls := [p1],
        spanCalls := deferredSpanCalls inst p1.Context started.2 data err }
    | ResolveOutcome.panicked msg =>
      { outcome := ResolveOutcome.panicked msg, resolverCalls := [p1],
        spanCalls := deferredSpanCalls inst p1.Context started.2 none none }

/-- The installed resolver as a `FieldResolveFn`. -/
def decorate (inst : Instrumentation) (resolver : Option FieldResolveFn) : FieldResolveFn :=
  fun p => (resolveRun inst resolver p).outcome

/-- The loop of `NewSchema` over the field definitions, given by their
addresses in the order of the iteration. `resolve` holds the member `Resolve`
of the definition at each address; `decorated` holds the addresses done. -/
def decorateFields (inst : Instrumentation) :
    List Nat → (Nat → Option FieldResolveFn) × List Nat → (Nat → Option FieldResolveFn) × List Nat
  | [], st => st
  | a :: rest, (resolve, decorated) =>
    if a ∈ decorated then decorateFields inst rest (resolve, decorated)
    else
      decorateFields inst rest
        (Function.update resolve a (some (decorate inst (resolve a))), a :: decorated)

/-- `NewSchema`, as far as the resolvers go: the `Resolve` members after the
loop over `config.Query.Fields()`, a map from field names to definitions
(here: to their addresses). The extension it adds and the schema that the
wrapped library builds are left out. -/
def NewSchema (inst : Instrumentation) (fields : List (String × Nat))
    (resolve : Nat → Option FieldResolveFn) : Nat → Option FieldResolveFn :=
  (decorateFields inst (fields.map Prod.snd) (resolve, [])).1

/-- A resolver that returns the source of its params and no error. -/
def echoResolver : FieldResolveFn :=
  fun p => ResolveOutcome.returned (some p.Source) none

/-- Listeners that signal a blocking action and add no tag. -/
def blockingInstrumentation : Instrumentation :=
  { effects := fun _ => { actions := [true], tags := [], events := [] },
    newOperation := fun _ => 1 }

/-- Listeners that do nothing. -/
def quietInstrumentation : Instrumentation :=
  { effects := fun _ => { actions := [], tags := [], events := [] },
    newOperation := fun _ => 1 }

/-- The struct `gqlerrors.FormattedError` of the wrapped library, as an error:
its method `Error` returns the message. -/
structure FormattedError where
  Message : String
deriving DecidableEq, Repr

/-- An `error` value that `toError` can return: one of the formatted errors,
or the error that `fmt.Errorf` makes with the verb `%w`, which holds its text
and the error it wraps. -/
inductive Error where
  | formatted (e : FormattedError)
  | wrapError (msg : String) (err : FormattedError)
deriving DecidableEq, Repr

/-- The method `Error()`: the message of the error. -/
def Error.message : Error → String
  | Error.formatted e => e.Message
  | Error.wrapError msg _ => msg

/-- What `errors.Unwrap` finds: the wrapped error, nil for a formatted error
(which has no `Unwrap` method). -/
def Error.unwrap : Error → Option Error
  | Error.formatted _ => none
  | Error.wrapError _ err => some (Error.formatted err)

/-- `toError`: nil for no error, the error itself for one, and for more the
error of `fmt.Errorf("%w (and %d more errors)", errs[0], count-1)`. -/
def toError (errs : List FormattedError) : Option Error :=
  match errs with
  | [] => none
  | [e] => some (Error.formatted e)
  | e :: _ :: _ =>
    some (Error.wrapError
      (e.Message ++ " (and " ++ toString (errs.length - 1) ++ " more errors)") e)

end graphql

/-!
# internal/namingschema: client and server operation names

A shallow embedding of `op_client_server.go`. The struct `config`, the
options and `New` are declared in files that are not in src; a schema is
modelled by the versioned operation that `New` wraps.
-/

namespace namingschema

/-- Modelled from the spec: the struct `config` of the naming schema options
(its file is not in src, and the spec does not describe it); the two fields
are those that `V0` and `V1` read, two `*string` that may be nil. -/
structure config where
  overrideV0 : Option String
  suffix : Option String
deriving DecidableEq, Repr

/-- The type `Option` of the package: a function that updates the config. -/
abbrev SchemaOption := config → config

/-- Modelled from the spec: the option `WithOverrideV0` (its file is not in
src, and the spec does not describe it); by its name and its use in
`NewGRPCClientOp` it sets the V0 override. -/
def WithOverrideV0 (value : String) : SchemaOption :=
  fun cfg => { cfg with overrideV0 := some value }

/-- Modelled from the spec: the option `WithOverrideSuffix` (its file is not
in src, and the spec does not describe it); by its name and its use in
`NewGraphqlServerOp` it sets the suffix. -/
def WithOverrideSuffix (value : String) : SchemaOption :=
  fun cfg => { cfg with suffix := some value }

/-- The config after the loop `for _, opt := range opts { opt(cfg) }` on
`&config{}`. -/
def applyOptions (opts : List SchemaOption) : config :=
  opts.foldl (fun cfg opt => opt cfg) { overrideV0 := none, suffix := none }

/-- The struct `clientOutboundOp`. -/
structure clientOutboundOp where
  cfg : config
  system : String
deriving DecidableEq, Repr

/-- The struct `serverInboundOp`. -/
structure serverInboundOp where
  cfg : config
  system : String
deriving DecidableEq, Repr

/-- `clientOutboundOp.V0`. -/
def clientOutboundOp.V0 (c : clientOutboundOp) : String :=
  match c.cfg.overrideV0 with
  | some v => v
  | none =>
    let suffix := match c.cfg.suffix with
      | some s => s
      | none => "request"
    c.system ++ "." ++ suffix

/-- `clientOutboundOp.V1`. -/
def clientOutboundOp.V1 (c : clientOutboundOp) : String :=
  let suffix := match c.cfg.suffix with
    | some s => s
    | none => "request"
  c.system ++ ".client." ++ suffix

/-- `serverInboundOp.V0`. -/
def serverInboundOp.V0 (s : serverInboundOp) : String :=
  match s.cfg.overrideV0 with
  | some v => v
  | none =>
    let suffix := match s.cfg.suffix with
      | some x => x
      | none => "request"
    s.system ++ "." ++ suffix

/-- `serverInboundOp.V1`. -/
def serverInboundOp.V1 (s : serverInboundOp) : String :=
  let suffix := match s.cfg.suffix with
    | some x => x
    | none => "request"
  s.system ++ ".server." ++ suffix

/-- `NewClientOutboundOp`, as the operation that the schema wraps. -/
def NewClientOutboundOp (system : String) (opts : List SchemaOption) : clientOutboundOp :=
  { cfg := applyOptions opts, system := system }

/-- `NewServerInboundOp`, as the operation that the schema wraps. -/
def NewServerInboundOp (system : String) (opts : List SchemaOption) : serverInboundOp :=
  { cfg := applyOptions opts, system := system }

/-- `NewHTTPClientOp`. -/
def NewHTTPClientOp (opts : List SchemaOption) : clientOutboundOp :=
  NewClientOutboundOp "http" opts

/-- `NewHTTPServerOp`. -/
def NewHTTPServerOp (opts : List SchemaOption) : serverInboundOp :=
  NewServerInboundOp "http" opts

/-- `NewGRPCClientOp`: the V0 override "grpc.client" comes before the caller's
options. -/
def NewGRPCClientOp (opts : List SchemaOption) : clientOutboundOp :=
  NewClientOutboundOp "grpc" (WithOverrideV0 "grpc.client" :: opts)

/-- `NewGRPCServerOp`: the V0 override "grpc.server" comes before the caller's
options. -/
def NewGRPCServerOp (opts : List SchemaOption) : serverInboundOp :=
  NewServerInboundOp "grpc" (WithOverrideV0 "grpc.server" :: opts)

/-- `NewGraphqlServerOp`: the suffix "execute" comes before the caller's
options. -/
def NewGraphqlServerOp (opts : List SchemaOption) : serverInboundOp :=
  NewServerInboundOp "graphql" (WithOverrideSuffix "execute" :: opts)

end namingschema

namespace sqltrace

open reflect (Driver DriverValue)

/-! ## Lookups after an update -/

theorem isRegistered_add (d : driverRegistry) (name : String) (driver : Driver) (cfg : config) :
    (d.add name driver cfg).isRegistered name = true := by
  unfold driverRegistry.add
  by_cases h : d.isRegistered name = true
  · rw [if_pos h]; exact h
  · rw [if_neg h]; simp [driverRegistry.isRegistered]

theorem isRegistered_Register (defaults : String → Option config → config) (r : driverRegistry)
    (name : String) (d : DriverValue) (opts : List RegisterOption) :
    (Register defaults r name (some d) opts).2.isRegistered name = true := by
  unfold Register
  by_cases h : r.isRegistered name = true
  · simp [h]
  · simp [h, isRegistered_add]

/-! ## Comment rendering -/

theorem joinFields_concat (l : List String) (x : String) (h : l ≠ []) :
    joinFields (l ++ [x]) = joinFields l ++ "," ++ x := by
  induction l with
  | nil => exact absurd rfl h
  | cons a t ih =>
    cases t with
    | nil => simp [joinFields]
    | cons b u =>
      have hb : joinFields (b :: u ++ [x]) = joinFields (b :: u) ++ "," ++ x := ih (by simp)
      simp only [List.cons_append] at hb ⊢
      simp only [joinFields, hb, String.append_assoc]

theorem traceparent_ne_empty (s : SpanContext) (n : Nat) : traceparent s n ≠ "" := by
  intro h
  have hd := congrArg String.data h
  simp [traceparent, String.data_append] at hd

theorem injectedTraceContext_service (tp : traceParams) (c : CallContext) (k : QueryType)
    (h : tp.cfg.dbmPropagationMode = DBMPropagationMode.service) :
    injectedTraceContext tp c k = none := by
  simp [injectedTraceContext, h]

theorem injectedTraceContext_prepare (tp : traceParams) (c : CallContext) :
    injectedTraceContext tp c QueryType.prepare = none := by
  unfold injectedTraceContext
  cases tp.cfg.dbmPropagationMode <;> rfl

theorem commentFields_of_no_trace (tp : traceParams) (c : CallContext) (k : QueryType)
    (hm : tp.cfg.dbmPropagationMode ≠ DBMPropagationMode.disabled) (hk : k ≠ QueryType.connect)
    (hi : injectedTraceContext tp c k = none) :
    commentFields tp c k = serviceFields tp c := by
  unfold commentFields
  rw [hi]
  cases hmode : tp.cfg.dbmPropagationMode <;> cases k <;> simp_all

theorem commentFields_of_trace (tp : traceParams) (c : CallContext) (k : QueryType)
    (s : SpanContext) (hi : injectedTraceContext tp c k = some s) :
    commentFields tp c k = serviceFields tp c ++ [("traceparent", traceparent s c.spanID)] := by
  unfold commentFields
  rw [hi]
  unfold injectedTraceContext at hi
  cases hmode : tp.cfg.dbmPropagationMode <;> cases k <;> simp_all

theorem emittedFields_keys_sublist (tp : traceParams) (c : CallContext) :
    ((emittedFields (serviceFields tp c)).map Prod.fst).Sublist ["dddbs", "dde", "ddps", "ddpv"] := by
  have h : (emittedFields (serviceFields tp c)).Sublist (serviceFields tp c) :=
    List.filter_sublist _
  exact h.map Prod.fst

theorem renderComment_of_ne_nil (fields : List (String × String))
    (h : emittedFields fields ≠ []) :
    renderComment fields = "/*" ++ joinFields ((emittedFields fields).map renderField) ++ "*/ " := by
  unfold renderComment
  cases he : emittedFields fields with
  | nil => exact absurd he h
  | cons f fs => rfl

theorem emittedFields_serviceFields_ne_nil (tp : traceParams) (c : CallContext)
    (h : dbServiceName tp c ≠ "") : emittedFields (serviceFields tp c) ≠ [] := by
  simp [emittedFields, serviceFields, List.filter, h]

theorem emittedFields_concat (fields : List (String × String)) (f : String × String)
    (h : f.2 ≠ "") : emittedFields (fields ++ [f]) = emittedFields fields ++ [f] := by
  simp [emittedFields, List.filter_append, List.filter, h]

/-! ## Hexadecimal text -/

theorem hexDigit_inj : ∀ a < 16, ∀ b < 16, hexDigit a = hexDigit b → a = b := by
  decide

theorem hexChars_length (w n : Nat) : (hexChars w n).length = w := by
  induction w generalizing n with
  | zero => rfl
  | succ w ih => simp [hexChars, ih]

theorem hexChars_inj (w : Nat) : ∀ a b : Nat, hexChars w a = hexChars w b → a % 16 ^ w = b % 16 ^ w := by
  induction w with
  | zero => intro a b _; simp [Nat.mod_one]
  | succ w ih =>
    intro a b h
    simp only [hexChars] at h
    obtain ⟨h1, h2⟩ := List.append_inj' h rfl
    have hd : a % 16 = b % 16 :=
      hexDigit_inj _ (Nat.mod_lt _ (by decide)) _ (Nat.mod_lt _ (by decide)) (by simpa using h2)
    have hq := ih _ _ h1
    rw [pow_succ', Nat.mod_mul, Nat.mod_mul, hd, hq]

theorem hex_inj (w a b : Nat) (ha : a < 16 ^ w) (hb : b < 16 ^ w) (h : hex w a = hex w b) :
    a = b := by
  have hc : hexChars w a = hexChars w b := by
    have hd := congrArg String.data h
    simpa [hex] using hd
  have := hexChars_inj w a b hc
  rwa [Nat.mod_eq_of_lt ha, Nat.mod_eq_of_lt hb] at this

theorem hexChars_digits (w n : Nat) : ∀ ch ∈ hexChars w n, ch ∈ "0123456789abcdef".data := by
  induction w generalizing n with
  | zero => intro ch h; simp [hexChars] at h
  | succ w ih =>
    intro ch h
    simp only [hexChars, List.mem_append, List.mem_singleton] at h
    rcases h with h | h
    · exact ih _ ch h
    · rw [h]
      have : ∀ d < 16, hexDigit d ∈ "0123456789abcdef".data := by decide
      exact this _ (Nat.mod_lt _ (by decide))

set_option maxRecDepth 16384

/-! ## The model on the cases of the test file -/

theorem injectComments_agrees_with_TestDBMPropagation :
    injectComments (testParams DBMPropagationMode.disabled) testContext QueryType.prepare
        "SELECT 1 from DUAL" = "SELECT 1 from DUAL"
      ∧ injectComments (testParams DBMPropagationMode.service) testContext QueryType.prepare
          "SELECT 1 from DUAL"
        = "/*dddbs='test.db',dde='test-env',ddps='test-service',ddpv='1.0.0'*/ SELECT 1 from DUAL"
      ∧ injectComments (testParamsWithTag DBMPropagationMode.service ext.DBName "peer-service-db")
          testContextPeerDefaults QueryType.prepare "SELECT 1 from DUAL"
        = "/*dddbs='peer-service-db',dde='test-env',ddps='test-service',ddpv='1.0.0'*/ SELECT 1 from DUAL"
      ∧ injectComments (testParamsWithTag DBMPropagationMode.service ext.DBName "peer-service-db")
          testContext QueryType.prepare "SELECT 1 from DUAL"
        = "/*dddbs='test.db',dde='test-env',ddps='test-service',ddpv='1.0.0'*/ SELECT 1 from DUAL"
      ∧ injectComments (testParams DBMPropagationMode.full) testContext QueryType.prepare
          "SELECT 1 from DUAL"
        = "/*dddbs='test.db',dde='test-env',ddps='test-service',ddpv='1.0.0'*/ SELECT 1 from DUAL"
      ∧ injectComments (testParams DBMPropagationMode.disabled) testContext QueryType.query
          "SELECT 1 from DUAL" = "SELECT 1 from DUAL"
      ∧ injectComments (testParams DBMPropagationMode.service) testContext QueryType.query
          "SELECT 1 from DUAL"
        = "/*dddbs='test.db',dde='test-env',ddps='test-service',ddpv='1.0.0'*/ SELECT 1 from DUAL"
      ∧ injectComments
          (testParamsWithTag DBMPropagationMode.service ext.PeerService "peer-service-value")
          testContext QueryType.query "SELECT 1 from DUAL"
        = "/*dddbs='peer-service-value',dde='test-env',ddps='test-service',ddpv='1.0.0'*/ SELECT 1 from DUAL"
      ∧ injectComments (testParams DBMPropagationMode.full) testContext QueryType.query
          "SELECT 1 from DUAL"
        = "/*dddbs='test.db',dde='test-env',ddps='test-service',ddpv='1.0.0',traceparent='00-00000000000000000000000000000001-000000000000002a-01'*/ SELECT 1 from DUAL"
      ∧ injectComments (testParams DBMPropagationMode.disabled) testContext QueryType.exec
          "SELECT 1 from DUAL" = "SELECT 1 from DUAL"
      ∧ injectComments (testParams DBMPropagationMode.service) testContext QueryType.exec
          "SELECT 1 from DUAL"
        = "/*dddbs='test.db',dde='test-env',ddps='test-service',ddpv='1.0.0'*/ SELECT 1 from DUAL"
      ∧ injectComments (testParamsWithTag DBMPropagationMode.service ext.DBName "peer-service-db")
          testContextPeerDefaults QueryType.exec "SELECT 1 from DUAL"
        = "/*dddbs='peer-service-db',dde='test-env',ddps='test-service',ddpv='1.0.0'*/ SELECT 1 from DUAL"
      ∧ injectComments (testParams DBMPropagationMode.full) testContext QueryType.exec
          "SELECT 1 from DUAL"
        = "/*dddbs='test.db',dde='test-env',ddps='test-service',ddpv='1.0.0',traceparent='00-00000000000000000000000000000001-000000000000002a-01'*/ SELECT 1 from DUAL" := by
  refine ⟨?_, ?_, ?_, ?_, ?_, ?_, ?_, ?_, ?_, ?_, ?_, ?_, ?_⟩ <;> decide

theorem dbmTraceInjectedTag_agrees_with_TestDBMTraceContextTagging :
    dbmTraceInjectedTag (testParams DBMPropagationMode.full) testContext QueryType.prepare = none
      ∧ dbmTraceInjectedTag (testParams DBMPropagationMode.disabled) testContext QueryType.query
        = none
      ∧ dbmTraceInjectedTag (testParams DBMPropagationMode.service) testContext QueryType.query
        = none
      ∧ dbmTraceInjectedTag (testParams DBMPropagationMode.full) testContext QueryType.query
        = some true
      ∧ dbmTraceInjectedTag (testParams DBMPropagationMode.disabled) testContext QueryType.exec
        = none
      ∧ dbmTraceInjectedTag (testParams DBMPropagationMode.service) testContext QueryType.exec
        = none
      ∧ dbmTraceInjectedTag (testParams DBMPropagationMode.full) testContext QueryType.exec
        = some true := by
  decide

/-! ## The claims -/

/-- C1: after `Register(name, d1, o1)`, a second `Register(name, d2, o2)` with
non-nil drivers returns without changing the registry, so `config(name)` and
`driver(name)` are the ones the first call left. -/
theorem C1_second_Register_is_noop (defaults : String → Option config → config)
    (r : driverRegistry) (name : String) (d1 d2 : DriverValue) (o1 o2 : List RegisterOption) :
    Register defaults (Register defaults r name (some d1) o1).2 name (some d2) o2
        = (Outcome.returned, (Register defaults r name (some d1) o1).2)
      ∧ (Register defaults (Register defaults r name (some d1) o1).2 name (some d2) o2).2.config name
        = (Register defaults r name (some d1) o1).2.config name
      ∧ (Register defaults (Register defaults r name (some d1) o1).2 name (some d2) o2).2.driver name
        = (Register defaults r name (some d1) o1).2.driver name := by
  have h := isRegistered_Register defaults r name d1 o1
  have e : Register defaults (Register defaults r name (some d1) o1).2 name (some d2) o2
      = (Outcome.returned, (Register defaults r name (some d1) o1).2) := by
    generalize (Register defaults r name (some d1) o1).2 = s at h
    simp [Register, h]
  exact ⟨e, by rw [e], by rw [e]⟩

/-- C2: `Register` with a nil driver panics, whatever the name and the
options, and the registry is the one before the call. -/
theorem C2_Register_nil_panics (defaults : String → Option config → config)
    (r : driverRegistry) (name : String) (opts : List RegisterOption) :
    Register defaults r name none opts
      = (Outcome.panicked "sqltrace: Register driver is nil", r) := by
  rfl

/-- C3, as stated, fails: for the driver name "sqlserver" and the option that
sets full mode, the config stored by `Register` is not the defaults with the
options applied in order (that config has full mode, the stored one service
mode). -/
theorem C3_stored_config_is_not_the_plain_fold :
    emptyRegistry.isRegistered "sqlserver" = false
      ∧ (Register exampleDefaults emptyRegistry "sqlserver" (some ⟨"*mssql.Driver", 1⟩)
          [WithDBMPropagation DBMPropagationMode.full]).2.config "sqlserver"
        ≠ (some ([WithDBMPropagation DBMPropagationMode.full].foldl (fun c fn => fn c)
            (exampleDefaults "sqlserver" none)), true) := by
  decide

/-- C3, amended: for a name that is not registered and a non-nil driver `d`,
after `Register(name, d, opts)` the name is registered, `driver(name)` is
`(d, true)`, `config(name)` is the config built from the defaults by applying
`opts` in order and then the propagation check of `checkDBMPropagation`, and
`name(d)` is `(name, true)`. -/
theorem C3_Register_fills_all_indexes (defaults : String → Option config → config)
    (r : driverRegistry) (name : String) (d : DriverValue) (opts : List RegisterOption)
    (h : r.isRegistered name = false) :
    (Register defaults r name (some d) opts).2.isRegistered name = true
      ∧ (Register defaults r name (some d) opts).2.driver name = (some d, true)
      ∧ (Register defaults r name (some d) opts).2.config name
          = (some (checkDBMPropagation (opts.foldl (fun c fn => fn c) (defaults name none)) name),
              true)
      ∧ (Register defaults r name (some d) opts).2.name (some d) = (name, true) := by
  refine ⟨isRegistered_Register defaults r name d opts, ?_, ?_, ?_⟩ <;>
    simp [Register, h, driverRegistry.add, driverRegistry.driver, driverRegistry.config,
      driverRegistry.name, processOptions]

/-- The amended C3 at the first registration of the name "sqlserver" with
the option that sets full mode. -/
theorem C3_Register_fills_all_indexes_witness :
    emptyRegistry.isRegistered "sqlserver" = false
      ∧ (Register exampleDefaults emptyRegistry "sqlserver" (some ⟨"*mssql.Driver", 1⟩)
          [WithDBMPropagation DBMPropagationMode.full]).2.config "sqlserver"
        = (some (checkDBMPropagation ([WithDBMPropagation DBMPropagationMode.full].foldl
            (fun c fn => fn c) (exampleDefaults "sqlserver" none)) "sqlserver"), true) :=
  ⟨by decide,
    (C3_Register_fills_all_indexes exampleDefaults emptyRegistry "sqlserver"
      ⟨"*mssql.Driver", 1⟩ [WithDBMPropagation DBMPropagationMode.full] (by decide)).2.2.1⟩

/-- C4: for a registered name `n` whose driver is `d`, after `unregister(n)`
the name is not registered, `driver(n)` and `config(n)` find nothing, and
`name(d)` finds nothing. -/
theorem C4_unregister_removes_all_indexes (r : driverRegistry) (n : String) (d : Driver)
    (hreg : r.isRegistered n = true) (hd : r.driver n = (d, true)) :
    (unregister r n).isRegistered n = false
      ∧ (unregister r n).driver n = (none, false)
      ∧ (unregister r n).config n = (none, false)
      ∧ (unregister r n).name d = ("", false) := by
  have hdrv : r.drivers n = some d := by
    unfold driverRegistry.driver at hd
    cases hx : r.drivers n with
    | none => rw [hx] at hd; simp at hd
    | some x => rw [hx] at hd; simp at hd; rw [hd]
  have e : unregister r n = r.unregister n := by
    unfold unregister
    rw [if_pos hreg]
  rw [e]
  simp [driverRegistry.unregister, driverRegistry.isRegistered,
    driverRegistry.driver, driverRegistry.config, driverRegistry.name, hdrv]

/-- C4 at the registry that holds the one driver of the test, under the name
"test". -/
theorem C4_unregister_removes_all_indexes_witness :
    (unregister (Register exampleDefaults emptyRegistry "test"
        (some ⟨"*internal.MockDriver", 1⟩) []).2 "test").name (some ⟨"*internal.MockDriver", 1⟩)
      = ("", false) :=
  (C4_unregister_removes_all_indexes
    (Register exampleDefaults emptyRegistry "test" (some ⟨"*internal.MockDriver", 1⟩) []).2
    "test" (some ⟨"*internal.MockDriver", 1⟩) (by decide) (by decide)).2.2.2

/-- C5: `checkDBMPropagation` equals the reference definition for every config
and driver name (full mode becomes service mode for "sqlserver" and "oracle",
nothing changes otherwise), and it leaves every other field of the config as
it was. -/
theorem C5_checkDBMPropagation_refines_spec (cfg : config) (driverName : String) :
    checkDBMPropagation cfg driverName = checkDBMPropagationSpec cfg driverName
      ∧ (checkDBMPropagation cfg driverName).serviceName = cfg.serviceName
      ∧ (checkDBMPropagation cfg driverName).dsn = cfg.dsn
      ∧ (checkDBMPropagation cfg driverName).tags = cfg.tags := by
  have hs : (¬ fullModeSupported driverName = true)
      ↔ (driverName = "sqlserver" ∨ driverName = "oracle") := by
    simp only [fullModeSupported, unsupportedDrivers, fullModeSupportedLoop]
    by_cases h1 : "sqlserver" = driverName
    · simp [h1]
    · by_cases h2 : "oracle" = driverName
      · simp [h1, h2]
      · simp [h1, h2, Ne.symm h1, Ne.symm h2]
  unfold checkDBMPropagation checkDBMPropagationSpec
  simp only [hs]
  split <;> simp

/-- C6: in disabled mode the prefix is empty and the SQL text handed to the
driver is the original text, for every query kind and every SQL text. -/
theorem C6_disabled_mode_leaves_sql (tp : traceParams) (c : CallContext) (k : QueryType)
    (query : String) (h : tp.cfg.dbmPropagationMode = DBMPropagationMode.disabled) :
    commentPrefix tp c k = "" ∧ injectComments tp c k query = query := by
  have hp : commentPrefix tp c k = "" := by
    simp [commentPrefix, commentFields, h, renderComment, emittedFields]
  exact ⟨hp, by rw [injectComments, hp, String.empty_append]⟩

/-- C6 at the query of the test in disabled mode. -/
theorem C6_disabled_mode_leaves_sql_witness :
    injectComments (testParams DBMPropagationMode.disabled) testContext QueryType.query
      "SELECT 1 from DUAL" = "SELECT 1 from DUAL" :=
  (C6_disabled_mode_leaves_sql (testParams DBMPropagationMode.disabled) testContext
    QueryType.query "SELECT 1 from DUAL" (by decide)).2

/-- C7, as stated, fails: with no env set the service-mode comment has three
fields, not the four of the claimed text (which would hold an empty `dde`). -/
theorem C7_empty_env_is_left_out :
    injectComments (testParams DBMPropagationMode.service) testContextNoEnv QueryType.query
        "SELECT 1 from DUAL"
      ≠ "/*dddbs='test.db',dde='',ddps='test-service',ddpv='1.0.0'*/ SELECT 1 from DUAL"
    ∧ injectComments (testParams DBMPropagationMode.service) testContextNoEnv QueryType.query
        "SELECT 1 from DUAL"
      = "/*dddbs='test.db',ddps='test-service',ddpv='1.0.0'*/ SELECT 1 from DUAL" := by
  decide

/-- C7, amended: in service mode, for every SQL text and every kind among
prepare, query and exec, the text handed to the driver is the comment of the
four service fields followed by the original text; the fields written are
those of `dddbs`, `dde`, `ddps`, `ddpv` whose value is not empty, in that
order, so there is no `traceparent`; `dddbs` is `<driverName>.db` when no
peer-service or db-name custom tag is set; and when all four values are non-empty the text is
exactly the four-field comment of the spec followed by the SQL. -/
theorem C7_service_mode_comment (tp : traceParams) (c : CallContext) (k : QueryType)
    (query : String) (hm : tp.cfg.dbmPropagationMode = DBMPropagationMode.service)
    (hk : k ≠ QueryType.connect) :
    injectComments tp c k query = renderComment (serviceFields tp c) ++ query
      ∧ ((emittedFields (commentFields tp c k)).map Prod.fst).Sublist
          ["dddbs", "dde", "ddps", "ddpv"]
      ∧ (customTag tp.cfg ext.PeerService = none → customTag tp.cfg ext.DBName = none →
          dbServiceName tp c = tp.driverName ++ ".db")
      ∧ (dbServiceName tp c ≠ "" → c.env ≠ "" → c.service ≠ "" → c.version ≠ "" →
          injectComments tp c k query
            = "/*dddbs='" ++ dbServiceName tp c ++ "',dde='" ++ c.env ++ "',ddps='" ++ c.service
                ++ "',ddpv='" ++ c.version ++ "'*/ " ++ query) := by
  have hf : commentFields tp c k = serviceFields tp c :=
    commentFields_of_no_trace tp c k (by rw [hm]; decide) hk
      (injectedTraceContext_service tp c k hm)
  refine ⟨by rw [injectComments, commentPrefix, hf], ?_, ?_, ?_⟩
  · rw [hf]; exact emittedFields_keys_sublist tp c
  · intro hp hn
    unfold dbServiceName
    rw [hp, hn]
    cases c.peerServiceDefaults <;> rfl
  · intro h1 h2 h3 h4
    rw [injectComments, commentPrefix, hf]
    simp only [renderComment, emittedFields, serviceFields, List.filter, h1, h2, h3, h4,
      ne_eq, not_false_eq_true, decide_True, List.map, joinFields, renderField]
    apply String.ext
    simp only [String.data_append, List.append_assoc]
    rfl

/-- The amended C7 at the query of the test in service mode. -/
theorem C7_service_mode_comment_witness :
    injectComments (testParams DBMPropagationMode.service) testContext QueryType.query
        "SELECT 1 from DUAL"
      = "/*dddbs='" ++ "test.db" ++ "',dde='" ++ "test-env" ++ "',ddps='" ++ "test-service"
          ++ "',ddpv='" ++ "1.0.0" ++ "'*/ " ++ "SELECT 1 from DUAL" :=
  (C7_service_mode_comment (testParams DBMPropagationMode.service) testContext QueryType.query
    "SELECT 1 from DUAL" (by decide) (by decide)).2.2.2 (by decide) (by decide) (by decide)
    (by decide)

/-- C8: in full mode the prefix of a prepare is the service-mode prefix of the
same configuration, for every SQL text, and no `traceparent` field is
written. -/
theorem C8_full_mode_prepare_is_service (tp : traceParams) (c : CallContext) (query : String)
    (hm : tp.cfg.dbmPropagationMode = DBMPropagationMode.full) :
    commentPrefix tp c QueryType.prepare
        = commentPrefix (withMode tp DBMPropagationMode.service) c QueryType.prepare
      ∧ injectComments tp c QueryType.prepare query
        = injectComments (withMode tp DBMPropagationMode.service) c QueryType.prepare query
      ∧ "traceparent" ∉ (emittedFields (commentFields tp c QueryType.prepare)).map Prod.fst := by
  have hf : commentFields tp c QueryType.prepare = serviceFields tp c :=
    commentFields_of_no_trace tp c QueryType.prepare (by rw [hm]; decide) (by decide)
      (injectedTraceContext_prepare tp c)
  have hs : commentFields (withMode tp DBMPropagationMode.service) c QueryType.prepare
      = serviceFields tp c :=
    commentFields_of_no_trace (withMode tp DBMPropagationMode.service) c QueryType.prepare
      (by simp [withMode]) (by decide) (injectedTraceContext_prepare _ c)
  have hp : commentPrefix tp c QueryType.prepare
      = commentPrefix (withMode tp DBMPropagationMode.service) c QueryType.prepare := by
    rw [commentPrefix, commentPrefix, hf, hs]
  refine ⟨hp, by rw [injectComments, injectComments, hp], ?_⟩
  rw [hf]
  intro hmem
  have := (emittedFields_keys_sublist tp c).subset hmem
  simp at this

/-- C8 at the prepare of the test in full mode. -/
theorem C8_full_mode_prepare_is_service_witness :
    injectComments (testParams DBMPropagationMode.full) testContext QueryType.prepare
        "SELECT 1 from DUAL"
      = injectComments (withMode (testParams DBMPropagationMode.full) DBMPropagationMode.service)
          testContext QueryType.prepare "SELECT 1 from DUAL" :=
  (C8_full_mode_prepare_is_service (testParams DBMPropagationMode.full) testContext
    "SELECT 1 from DUAL" (by decide)).2.1

/-- C9, as stated, fails. On the flags: under a parent span with trace id 1
that is not sampled, no span id makes the text handed to the driver the
claimed one with the flags 01 (the flags written are 00). On the shape: when
none of the four service fields has a value, the service-mode comment is
empty and the full-mode comment holds the `traceparent` field alone, with no
comma before it. -/
theorem C9_flags_and_shape_depend_on_the_call :
    (¬ ∃ sid : String,
        injectComments (testParams DBMPropagationMode.full) testContextUnsampled QueryType.query
            "SELECT 1 from DUAL"
          = "/*dddbs='test.db',dde='test-env',ddps='test-service',ddpv='1.0.0',traceparent='00-00000000000000000000000000000001-"
              ++ sid ++ "-01'*/ SELECT 1 from DUAL")
      ∧ commentPrefix (testParamsWithTag DBMPropagationMode.service ext.PeerService "")
          testContextNoFields QueryType.query = ""
      ∧ commentPrefix (testParamsWithTag DBMPropagationMode.full ext.PeerService "")
          testContextNoFields QueryType.query
        = "/*traceparent='00-00000000000000000000000000000001-000000000000002a-01'*/ " := by
  refine ⟨?_, by decide, by decide⟩
  rintro ⟨sid, h⟩
  have hv : injectComments (testParams DBMPropagationMode.full) testContextUnsampled
      QueryType.query "SELECT 1 from DUAL"
      = "/*dddbs='test.db',dde='test-env',ddps='test-service',ddpv='1.0.0',traceparent='00-00000000000000000000000000000001-000000000000002a-00'*/ SELECT 1 from DUAL" := by
    decide
  rw [hv] at h
  have hd := congrArg String.data h
  rw [String.data_append, String.data_append] at hd
  have hsuf : "-01'*/ SELECT 1 from DUAL".data <:+
      "/*dddbs='test.db',dde='test-env',ddps='test-service',ddpv='1.0.0',traceparent='00-00000000000000000000000000000001-000000000000002a-00'*/ SELECT 1 from DUAL".data := by
    rw [hd]
    exact List.suffix_append _ _
  revert hsuf
  decide

/-- C9, amended: in full mode, for query and exec under an active parent span
with trace id 1, the comment holds the fields of the service-mode comment
followed by the field `traceparent`; when the service-mode comment is not
empty it is that comment extended with `,traceparent='...'` before the
closing `*/`. The value is `00-`, the trace id
00000000000000000000000000000001, the 16 lowercase hexadecimal digits of the
id generated for the span of the call, and the flags, which are 01 when the
parent span is sampled and 00 when it is not. The span id of the parent is
not read, and the span id written is not the parent's, the id of the call
being generated anew. -/
theorem C9_full_mode_traceparent (tp : traceParams) (c : CallContext) (k : QueryType)
    (s : SpanContext) (hm : tp.cfg.dbmPropagationMode = DBMPropagationMode.full)
    (hk : k = QueryType.query ∨ k = QueryType.exec) (hs : c.activeSpan = some s)
    (ht : s.traceID = 1) :
    emittedFields (commentFields tp c k)
        = emittedFields (commentFields (withMode tp DBMPropagationMode.service) c k)
            ++ [("traceparent", traceparent s c.spanID)]
      ∧ (commentPrefix (withMode tp DBMPropagationMode.service) c k ≠ "" →
          commentPrefix (withMode tp DBMPropagationMode.service) c k
              = "/*" ++ joinFields ((emittedFields (serviceFields tp c)).map renderField) ++ "*/ "
            ∧ commentPrefix tp c k
              = "/*" ++ joinFields ((emittedFields (serviceFields tp c)).map renderField)
                  ++ ",traceparent='" ++ traceparent s c.spanID ++ "'*/ ")
      ∧ traceparent s c.spanID
        = "00-00000000000000000000000000000001-" ++ hex 16 c.spanID ++ "-"
            ++ (if s.sampled = true then "01" else "00")
      ∧ (hex 16 c.spanID).length = 16
      ∧ (∀ ch ∈ (hex 16 c.spanID).data, ch ∈ "0123456789abcdef".data)
      ∧ (freshSpanID c s → hex 16 c.spanID ≠ hex 16 s.spanID)
      ∧ (∀ parentID : Nat,
          commentPrefix tp { c with activeSpan := some { s with spanID := parentID } } k
            = commentPrefix tp c k) := by
  have hks : k ≠ QueryType.connect := by rcases hk with h | h <;> rw [h] <;> decide
  have hsv : commentFields (withMode tp DBMPropagationMode.service) c k = serviceFields tp c :=
    commentFields_of_no_trace (withMode tp DBMPropagationMode.service) c k
      (by simp [withMode]) hks (injectedTraceContext_service _ c k rfl)
  have hi : injectedTraceContext tp c k = some s := by
    rcases hk with h | h <;> simp [injectedTraceContext, hm, h, hs]
  have hfl := commentFields_of_trace tp c k s hi
  have hcat := emittedFields_concat (serviceFields tp c)
    ("traceparent", traceparent s c.spanID) (traceparent_ne_empty s c.spanID)
  refine ⟨?_, ?_, ?_, ?_, ?_, ?_, ?_⟩
  · rw [hfl, hsv, hcat]
  · intro hne0
    have hne : emittedFields (serviceFields tp c) ≠ [] := by
      intro he
      apply hne0
      rw [commentPrefix, hsv, renderComment, he]
    refine ⟨by rw [commentPrefix, hsv, renderComment_of_ne_nil _ hne], ?_⟩
    have hne2 : emittedFields (serviceFields tp c ++ [("traceparent", traceparent s c.spanID)])
        ≠ [] := by
      rw [hcat]; simp
    rw [commentPrefix, hfl, renderComment_of_ne_nil _ hne2, hcat, List.map_append,
      List.map_singleton, joinFields_concat _ _ (by simpa using hne)]
    simp only [renderField]
    apply String.ext
    simp only [String.data_append, List.append_assoc]
    rfl
  · have h32 : hex 32 1 = "00000000000000000000000000000001" := by decide
    have h1 : hex 2 1 = "01" := by decide
    have h0 : hex 2 0 = "00" := by decide
    unfold traceparent
    rw [ht, h32]
    cases s.sampled
    · simp only [Bool.false_eq_true, if_false, h0]
      apply String.ext
      simp only [String.data_append, List.append_assoc]
      rfl
    · simp only [if_true, h1]
      apply String.ext
      simp only [String.data_append, List.append_assoc]
      rfl
  · simp [hex, hexChars_length]
  · intro ch hch
    exact hexChars_digits 16 c.spanID ch (by simpa [hex] using hch)
  · intro hfresh heq
    obtain ⟨hne3, h1, h2⟩ := hfresh
    exact hne3 (hex_inj 16 _ _ (by norm_num at h1 ⊢; exact h1) (by norm_num at h2 ⊢; exact h2) heq)
  · intro parentID
    have hi2 : injectedTraceContext tp
        { c with activeSpan := some { s with spanID := parentID } } k
        = some { s with spanID := parentID } := by
      rcases hk with h | h <;> simp [injectedTraceContext, hm, h]
    rw [commentPrefix, commentPrefix, hfl, commentFields_of_trace tp _ k _ hi2]
    rfl

/-- The amended C9 at the query of the test in full mode: sampled parent span
with trace id 1 and span id 1, generated span id 42. -/
theorem C9_full_mode_traceparent_witness :
    commentPrefix (testParams DBMPropagationMode.full) testContext QueryType.query
        = "/*" ++ joinFields ((emittedFields (serviceFields (testParams DBMPropagationMode.full)
              testContext)).map renderField)
            ++ ",traceparent='" ++ traceparent ⟨1, 1, true⟩ testContext.spanID ++ "'*/ "
      ∧ hex 16 testContext.spanID ≠ hex 16 1 :=
  have h := C9_full_mode_traceparent (testParams DBMPropagationMode.full) testContext
    QueryType.query ⟨1, 1, true⟩ (by decide) (by decide) (by decide) (by decide)
  ⟨(h.2.1 (by decide)).2, h.2.2.2.2.2.1 ⟨by decide, by decide, by decide⟩⟩

/-- C10: the trace-context-injected tag is set to true on the span of a call
exactly when the mode is full and the query kind is query or exec; for a
prepare in full mode and for every kind in disabled or service mode the tag is
absent, and it is never present with the value false. Under an active span
the tag is set exactly when the comment holds a `traceparent` field. -/
theorem C10_trace_injected_tag (tp : traceParams) (c : CallContext) (k : QueryType) :
    (dbmTraceInjectedTag tp c k = some true
        ↔ tp.cfg.dbmPropagationMode = DBMPropagationMode.full
            ∧ (k = QueryType.query ∨ k = QueryType.exec))
      ∧ (¬ (tp.cfg.dbmPropagationMode = DBMPropagationMode.full
            ∧ (k = QueryType.query ∨ k = QueryType.exec)) →
          dbmTraceInjectedTag tp c k = none)
      ∧ dbmTraceInjectedTag tp c QueryType.prepare = none
      ∧ (tp.cfg.dbmPropagationMode ≠ DBMPropagationMode.full → dbmTraceInjectedTag tp c k = none)
      ∧ dbmTraceInjectedTag tp c k ≠ some false
      ∧ (c.activeSpan.isSome = true →
          (dbmTraceInjectedTag tp c k = some true
            ↔ "traceparent" ∈ (emittedFields (commentFields tp c k)).map Prod.fst)) := by
  refine ⟨?_, ?_, ?_, ?_, ?_, ?_⟩
  · unfold dbmTraceInjectedTag
    cases tp.cfg.dbmPropagationMode <;> cases k <;> simp
  · unfold dbmTraceInjectedTag
    cases tp.cfg.dbmPropagationMode <;> cases k <;> simp
  · unfold dbmTraceInjectedTag
    cases tp.cfg.dbmPropagationMode <;> rfl
  · unfold dbmTraceInjectedTag
    cases tp.cfg.dbmPropagationMode <;> cases k <;> simp
  · unfold dbmTraceInjectedTag
    cases tp.cfg.dbmPropagationMode <;> cases k <;> simp
  · intro hsome
    obtain ⟨s0, hs0⟩ := Option.isSome_iff_exists.mp hsome
    have htag : dbmTraceInjectedTag tp c k = some true
        ↔ (injectedTraceContext tp c k).isSome = true := by
      unfold dbmTraceInjectedTag injectedTraceContext
      cases tp.cfg.dbmPropagationMode <;> cases k <;> simp [hs0]
    rw [htag]
    cases hi : injectedTraceContext tp c k with
    | none =>
      have hnot : "traceparent" ∉ (emittedFields (commentFields tp c k)).map Prod.fst := by
        by_cases hm : tp.cfg.dbmPropagationMode = DBMPropagationMode.disabled
        · simp [commentFields, hm, emittedFields]
        · by_cases hk : k = QueryType.connect
          · have : commentFields tp c k = [] := by
              unfold commentFields
              rw [hk]
              cases tp.cfg.dbmPropagationMode <;> rfl
            simp [this, emittedFields]
          · rw [commentFields_of_no_trace tp c k hm hk hi]
            intro hmem
            have := (emittedFields_keys_sublist tp c).subset hmem
            simp at this
      simp [hnot]
    | some s =>
      have hmem : "traceparent" ∈ (emittedFields (commentFields tp c k)).map Prod.fst := by
        rw [commentFields_of_trace tp c k s hi,
          emittedFields_concat _ _ (traceparent_ne_empty s c.spanID)]
        simp
      simp [hmem]

/-- C10 at the query of the test in full mode, made under the parent span of
the test: the tag is set and the comment holds a `traceparent` field. -/
theorem C10_trace_injected_tag_witness :
    dbmTraceInjectedTag (testParams DBMPropagationMode.full) testContext QueryType.query
        = some true
      ∧ "traceparent" ∈ (emittedFields (commentFields (testParams DBMPropagationMode.full)
          testContext QueryType.query)).map Prod.fst :=
  have h := C10_trace_injected_tag (testParams DBMPropagationMode.full) testContext
    QueryType.query
  ⟨h.1.mpr (by decide), (h.2.2.2.2.2 (by decide)).mp (h.1.mpr (by decide))⟩

/-! ## Registry runs -/

theorem Register_of_not_registered (defaults : String → Option config → config)
    (r : driverRegistry) (name : String) (d : DriverValue) (opts : List RegisterOption)
    (h : r.isRegistered name = false) :
    (Register defaults r name (some d) opts).2
      = { keys := Function.update r.keys (some d.typ) (some name)
          drivers := Function.update r.drivers name (some (some d))
          configs := Function.update r.configs name
            (some (processOptions (defaults name none) name opts)) } := by
  simp [Register, h, driverRegistry.add, reflect.TypeOf]

theorem isRegistered_unregister (r : driverRegistry) (name : String) :
    (unregister r name).isRegistered name = false := by
  unfold unregister
  by_cases h : r.isRegistered name = true
  · rw [if_pos h]; simp [driverRegistry.unregister, driverRegistry.isRegistered]
  · rw [if_neg h]; simpa using h

theorem registryInvariant_add (r : driverRegistry) (name : String) (d : DriverValue)
    (cfg : config) (h : registryInvariant r) : registryInvariant (r.add name (some d) cfg) := by
  unfold driverRegistry.add
  by_cases hreg : r.isRegistered name = true
  · rw [if_pos hreg]; exact h
  · rw [if_neg hreg]
    have hcn : r.configs name = none := by
      simpa [driverRegistry.isRegistered] using hreg
    refine ⟨?_, ?_⟩
    · intro n
      dsimp only
      by_cases hn : n = name
      · subst hn; simp
      · simp [Function.update_noteq hn, h.1 n]
    · intro T n hk
      dsimp only at hk
      by_cases hT : T = reflect.TypeOf (some d)
      · rw [hT, Function.update_same] at hk
        have hn : n = name := (Option.some.inj hk).symm
        subst hn
        exact ⟨by simp [driverRegistry.isRegistered], some d, by simp, hT.symm⟩
      · rw [Function.update_noteq hT] at hk
        obtain ⟨hr, d', hd', ht'⟩ := h.2 T n hk
        have hn : n ≠ name := by
          intro e
          rw [e] at hr
          exact hreg hr
        refine ⟨?_, d', ?_, ht'⟩
        · simpa [driverRegistry.isRegistered, Function.update_noteq hn] using hr
        · simpa [Function.update_noteq hn] using hd'

theorem registryInvariant_unregister (r : driverRegistry) (name : String)
    (h : registryInvariant r) : registryInvariant (r.unregister name) := by
  unfold driverRegistry.unregister
  refine ⟨?_, ?_⟩
  · intro n
    dsimp only
    by_cases hn : n = name
    · subst hn; simp
    · simp [Function.update_noteq hn, h.1 n]
  · intro T n hk
    dsimp only at hk
    by_cases hT : T = reflect.TypeOf ((r.drivers name).getD none)
    · rw [hT, Function.update_same] at hk
      exact absurd hk (by simp)
    · rw [Function.update_noteq hT] at hk
      obtain ⟨hr, d', hd', ht'⟩ := h.2 T n hk
      have hn : n ≠ name := by
        intro e
        apply hT
        rw [← e, hd', ← ht']
        rfl
      refine ⟨?_, d', ?_, ht'⟩
      · simpa [driverRegistry.isRegistered, Function.update_noteq hn] using hr
      · simpa [Function.update_noteq hn] using hd'

theorem registryInvariant_runSteps (steps : List RegistryStep) :
    ∀ r : driverRegistry, registryInvariant r → registryInvariant (runSteps r steps) := by
  induction steps with
  | nil => intro r h; exact h
  | cons step rest ih =>
    intro r h
    have hs : registryInvariant (runStep r step) := by
      cases step with
      | add name d cfg => exact registryInvariant_add r name d cfg h
      | unregister name => exact registryInvariant_unregister r name h
    exact ih _ hs

/-- C20: every registry reached from the empty registry by `add` with
non-nil drivers and by `unregister` has the same names in `drivers` and in
`configs`, and for every driver type `T` with `keys[T] = n` the name `n` is
registered and the driver stored under `n` has the type `T`. -/
theorem C20_registry_invariant (steps : List RegistryStep) :
    (∀ n : String, ((runSteps emptyRegistry steps).drivers n).isSome
        = ((runSteps emptyRegistry steps).configs n).isSome)
      ∧ ∀ (T : Option String) (n : String), (runSteps emptyRegistry steps).keys T = some n →
          (runSteps emptyRegistry steps).isRegistered n = true
            ∧ ∃ d : Driver, (runSteps emptyRegistry steps).drivers n = some d
                ∧ reflect.TypeOf d = T := by
  have h0 : registryInvariant emptyRegistry := by
    refine ⟨fun n => rfl, ?_⟩
    intro T n hk
    simp [emptyRegistry] at hk
  exact registryInvariant_runSteps steps emptyRegistry h0

theorem agreeInvariant_Register (defaults : String → Option config → config)
    (r : driverRegistry) (name : String) (driver : Driver) (opts : List RegisterOption)
    (h : agreeInvariant r)
    (hf : driver ≠ none → r.isRegistered name = false → typeIsFresh r driver) :
    agreeInvariant (Register defaults r name driver opts).2 := by
  cases driver with
  | none => exact h
  | some d =>
    by_cases hreg : r.isRegistered name = true
    · simpa [Register, hreg] using h
    · have hreg' : r.isRegistered name = false := by simpa using hreg
      have hfresh := hf (by simp) hreg'
      rw [Register_of_not_registered defaults r name d opts hreg']
      refine ⟨?_, ?_⟩
      · intro n
        dsimp only
        by_cases hn : n = name
        · subst hn; simp
        · simp [Function.update_noteq hn, h.1 n]
      · intro n d' hd'
        dsimp only at hd' ⊢
        by_cases hn : n = name
        · subst hn
          rw [Function.update_same] at hd'
          have e : d' = some d := (Option.some.inj hd').symm
          subst e
          simp [reflect.TypeOf]
        · rw [Function.update_noteq hn] at hd'
          have hne : reflect.TypeOf d' ≠ some d.typ := by
            simpa [reflect.TypeOf] using hfresh n d' hd'
          rw [Function.update_noteq hne]
          exact h.2 n d' hd'

theorem agreeInvariant_unregister (r : driverRegistry) (name : String)
    (h : agreeInvariant r) : agreeInvariant (unregister r name) := by
  unfold unregister
  by_cases hreg : r.isRegistered name = true
  · rw [if_pos hreg]
    have hsome : (r.drivers name).isSome = true := by
      rw [h.1 name]; exact hreg
    obtain ⟨dn, hdn⟩ := Option.isSome_iff_exists.mp hsome
    unfold driverRegistry.unregister
    refine ⟨?_, ?_⟩
    · intro n
      dsimp only
      by_cases hn : n = name
      · subst hn; simp
      · simp [Function.update_noteq hn, h.1 n]
    · intro n d' hd'
      dsimp only at hd' ⊢
      by_cases hn : n = name
      · subst hn
        rw [Function.update_same] at hd'
        exact absurd hd' (by simp)
      · rw [Function.update_noteq hn] at hd'
        have hk := h.2 n d' hd'
        have hne : reflect.TypeOf d' ≠ reflect.TypeOf ((r.drivers name).getD none) := by
          intro e
          rw [hdn] at e
          simp only [Option.getD_some] at e
          have hk2 := h.2 name dn hdn
          rw [← e, hk] at hk2
          exact hn (Option.some.inj hk2)
        rw [Function.update_noteq hne]
        exact hk
  · rw [if_neg hreg]; exact h

theorem agreeInvariant_runCalls (defaults : String → Option config → config)
    (calls : List RegistryCall) :
    ∀ r : driverRegistry, agreeInvariant r → distinctTypes defaults r calls →
      agreeInvariant (runCalls defaults r calls) := by
  induction calls with
  | nil => intro r h _; exact h
  | cons call rest ih =>
    intro r h hd
    obtain ⟨hc, hrest⟩ := hd
    have hs : agreeInvariant (runCall defaults r call) := by
      cases call with
      | Register name driver opts => exact agreeInvariant_Register defaults r name driver opts h hc
      | unregister name => exact agreeInvariant_unregister r name h
    exact ih _ hs hrest

theorem lookupsAgree_of_agreeInvariant (r : driverRegistry) (h : agreeInvariant r) :
    lookupsAgree r := by
  intro n d _ hd
  have hdrv : r.drivers n = some d := by
    unfold driverRegistry.driver at hd
    cases hx : r.drivers n with
    | none => rw [hx] at hd; simp at hd
    | some x => rw [hx] at hd; simp at hd; rw [hd]
  simp [driverRegistry.name, h.2 n d hdrv]

/-- C16, as stated, fails: after `Register("a", d1)` and `Register("b", d2)`
with two drivers of one dynamic type, "a" is registered with the driver `d1`,
and `name(d1)` returns "b". -/
theorem C16_two_names_one_driver_type :
    (runCalls exampleDefaults emptyRegistry
        [RegistryCall.Register "a" (some ⟨"*pq.Driver", 1⟩) [],
         RegistryCall.Register "b" (some ⟨"*pq.Driver", 2⟩) []]).isRegistered "a" = true
      ∧ (runCalls exampleDefaults emptyRegistry
        [RegistryCall.Register "a" (some ⟨"*pq.Driver", 1⟩) [],
         RegistryCall.Register "b" (some ⟨"*pq.Driver", 2⟩) []]).driver "a"
          = (some ⟨"*pq.Driver", 1⟩, true)
      ∧ (runCalls exampleDefaults emptyRegistry
        [RegistryCall.Register "a" (some ⟨"*pq.Driver", 1⟩) [],
         RegistryCall.Register "b" (some ⟨"*pq.Driver", 2⟩) []]).name (some ⟨"*pq.Driver", 1⟩)
          = ("b", true)
      ∧ ¬ lookupsAgree (runCalls exampleDefaults emptyRegistry
        [RegistryCall.Register "a" (some ⟨"*pq.Driver", 1⟩) [],
         RegistryCall.Register "b" (some ⟨"*pq.Driver", 2⟩) []]) := by
  refine ⟨by decide, by decide, by decide, ?_⟩
  intro h
  have h1 := h "a" (some ⟨"*pq.Driver", 1⟩) (by decide) (by decide)
  revert h1
  decide

/-- C16, amended: in every registry state reached from the empty registry by
`Register` and `unregister` in which every `Register` that takes effect
brings a driver whose dynamic type no stored driver has at that time, for
every registered name `n`, if `driver(n)` returns `d` then `name(d)` returns
`(n, true)`. -/
theorem C16_lookups_agree_for_distinct_types (defaults : String → Option config → config)
    (calls : List RegistryCall) (h : distinctTypes defaults emptyRegistry calls)
    (n : String) (d : Driver)
    (hreg : (runCalls defaults emptyRegistry calls).isRegistered n = true)
    (hd : (runCalls defaults emptyRegistry calls).driver n = (d, true)) :
    (runCalls defaults emptyRegistry calls).name d = (n, true) := by
  have h0 : agreeInvariant emptyRegistry := by
    refine ⟨fun n => rfl, ?_⟩
    intro n d hd
    simp [emptyRegistry] at hd
  exact lookupsAgree_of_agreeInvariant _
    (agreeInvariant_runCalls defaults calls emptyRegistry h0 h) n d hreg hd

/-- The amended C16 after two registrations with drivers of two types and the
removal of the second name. -/
theorem C16_lookups_agree_for_distinct_types_witness :
    (runCalls exampleDefaults emptyRegistry
        [RegistryCall.Register "a" (some ⟨"*pq.Driver", 1⟩) [],
         RegistryCall.Register "b" (some ⟨"*mysql.MySQLDriver", 2⟩) [],
         RegistryCall.unregister "b"]).name (some ⟨"*pq.Driver", 1⟩) = ("a", true) :=
  C16_lookups_agree_for_distinct_types exampleDefaults
    [RegistryCall.Register "a" (some ⟨"*pq.Driver", 1⟩) [],
     RegistryCall.Register "b" (some ⟨"*mysql.MySQLDriver", 2⟩) [],
     RegistryCall.unregister "b"]
    (by
      refine ⟨?_, ?_, trivial, trivial⟩
      · intro _ _ n d hd
        simp [emptyRegistry] at hd
      · intro _ _ n d hd
        have hr : (runCall exampleDefaults emptyRegistry
            (RegistryCall.Register "a" (some ⟨"*pq.Driver", 1⟩) [])).drivers
            = Function.update emptyRegistry.drivers "a" (some (some ⟨"*pq.Driver", 1⟩)) := by
          simp [runCall, Register_of_not_registered exampleDefaults emptyRegistry "a"
            ⟨"*pq.Driver", 1⟩ [] (by decide)]
        rw [hr] at hd
        by_cases hn : n = "a"
        · subst hn
          rw [Function.update_same] at hd
          have e : d = some ⟨"*pq.Driver", 1⟩ := (Option.some.inj hd).symm
          subst e
          decide
        · rw [Function.update_noteq hn] at hd
          simp [emptyRegistry] at hd)
    "a" (some ⟨"*pq.Driver", 1⟩) (by decide) (by decide)

/-! ## Options and the propagation check -/

theorem fullModeSupported_iff (driverName : String) :
    fullModeSupported driverName = true ↔ driverName ≠ "sqlserver" ∧ driverName ≠ "oracle" := by
  simp only [fullModeSupported, unsupportedDrivers, fullModeSupportedLoop]
  by_cases h1 : "sqlserver" = driverName
  · subst h1; simp
  · by_cases h2 : "oracle" = driverName
    · subst h2; simp
    · simp [h1, h2, Ne.symm h1, Ne.symm h2]

theorem checkDBMPropagation_of_supported (cfg : config) (driverName : String)
    (h : fullModeSupported driverName = true) : checkDBMPropagation cfg driverName = cfg := by
  simp [checkDBMPropagation, h]

theorem checkDBMPropagation_idem (cfg : config) (driverName : String) :
    checkDBMPropagation (checkDBMPropagation cfg driverName) driverName
      = checkDBMPropagation cfg driverName := by
  unfold checkDBMPropagation
  split <;> simp_all

theorem checkDBMPropagation_mode_congr (c1 c2 : config) (driverName : String)
    (h : c1.dbmPropagationMode = c2.dbmPropagationMode) :
    (checkDBMPropagation c1 driverName).dbmPropagationMode
      = (checkDBMPropagation c2 driverName).dbmPropagationMode := by
  unfold checkDBMPropagation
  rw [h]
  split <;> simp [h]

theorem foldl_setsOrKeepsMode (opts : List RegisterOption)
    (h : ∀ fn ∈ opts, setsOrKeepsMode fn) :
    (∀ c : config, (opts.foldl (fun c fn => fn c) c).dbmPropagationMode = c.dbmPropagationMode)
      ∨ ∃ m : DBMPropagationMode, ∀ c : config,
          (opts.foldl (fun c fn => fn c) c).dbmPropagationMode = m := by
  induction opts with
  | nil => left; intro c; rfl
  | cons fn rest ih =>
    have hrest := ih (fun g hg => h g (List.mem_cons_of_mem _ hg))
    have hfn := h fn (List.mem_cons_self _ _)
    simp only [List.foldl_cons]
    rcases hrest with hk | ⟨m, hm⟩
    · rcases hfn with hfk | ⟨m, hfm⟩
      · left; intro c; rw [hk, hfk]
      · right; exact ⟨m, fun c => by rw [hk, hfm]⟩
    · right; exact ⟨m, fun c => hm _⟩

/-- C17: after `Register(name, d, o1)` and `unregister(name)`, a new
`Register(name, d, o2)` takes effect: `config(name)` is the config that
`Register` builds from `o2` (the defaults, the options of `o2` in order, the
propagation check), whatever `o1` was; for a driver name that supports full
mode, as "test" does, that is the defaults with `o2` applied. -/
theorem C17_Register_after_unregister (defaults : String → Option config → config)
    (r : driverRegistry) (name : String) (d : DriverValue) (o1 o2 : List RegisterOption) :
    (Register defaults (unregister (Register defaults r name (some d) o1).2 name) name (some d)
        o2).2.config name
        = (some (processOptions (defaults name none) name o2), true)
      ∧ (fullModeSupported name = true →
          (Register defaults (unregister (Register defaults r name (some d) o1).2 name) name
            (some d) o2).2.config name
            = (some (o2.foldl (fun c fn => fn c) (defaults name none)), true)) := by
  have hu := isRegistered_unregister (Register defaults r name (some d) o1).2 name
  have h1 : (Register defaults (unregister (Register defaults r name (some d) o1).2 name) name
      (some d) o2).2.config name = (some (processOptions (defaults name none) name o2), true) := by
    rw [Register_of_not_registered defaults _ name d o2 hu]
    simp [driverRegistry.config]
  refine ⟨h1, ?_⟩
  intro hs
  rw [h1, processOptions, checkDBMPropagation_of_supported _ _ hs]

/-- C17 at the test: "test" registered with disabled mode, unregistered, and
registered again with full mode has a config in full mode. -/
theorem C17_Register_after_unregister_witness :
    (Register exampleDefaults (unregister (Register exampleDefaults emptyRegistry "test"
        (some ⟨"*internal.MockDriver", 1⟩)
        [WithDBMPropagation DBMPropagationMode.disabled]).2 "test") "test"
        (some ⟨"*internal.MockDriver", 1⟩)
        [WithDBMPropagation DBMPropagationMode.full]).2.config "test"
      = (some ([WithDBMPropagation DBMPropagationMode.full].foldl (fun c fn => fn c)
          (exampleDefaults "test" none)), true) :=
  (C17_Register_after_unregister exampleDefaults emptyRegistry "test"
    ⟨"*internal.MockDriver", 1⟩ [WithDBMPropagation DBMPropagationMode.disabled]
    [WithDBMPropagation DBMPropagationMode.full]).2 (by decide)

/-- C19, as stated, fails in its last part: with an option that flips the
mode between disabled and service, `processOptions` applied twice leaves
another mode than applied once. -/
theorem C19_toggle_option_is_not_idempotent :
    (processOptions (processOptions (exampleDefaults "test" none) "test" [toggleMode]) "test"
        [toggleMode]).dbmPropagationMode
      ≠ (processOptions (exampleDefaults "test" none) "test" [toggleMode]).dbmPropagationMode := by
  decide

/-- C19, amended: for every driver name and every list of options, the config
left by `processOptions` has full mode only if the driver name is neither
"sqlserver" nor "oracle" (the check runs after all options); `processOptions`
run again with no options changes nothing; and when every option keeps the
mode or sets it to a fixed value, `processOptions` applied twice gives the
same mode as applied once. -/
theorem C19_processOptions_mode (cfg : config) (driverName : String)
    (opts : List RegisterOption) :
    ((processOptions cfg driverName opts).dbmPropagationMode = DBMPropagationMode.full →
        driverName ≠ "sqlserver" ∧ driverName ≠ "oracle")
      ∧ processOptions (processOptions cfg driverName opts) driverName []
          = processOptions cfg driverName opts
      ∧ ((∀ fn ∈ opts, setsOrKeepsMode fn) →
          (processOptions (processOptions cfg driverName opts) driverName opts).dbmPropagationMode
            = (processOptions cfg driverName opts).dbmPropagationMode) := by
  refine ⟨?_, ?_, ?_⟩
  · intro hfull
    rw [← fullModeSupported_iff]
    by_contra hns
    unfold processOptions checkDBMPropagation at hfull
    split at hfull
    · simp at hfull
    · rename_i hc
      exact hc ⟨hfull, hns⟩
  · simp only [processOptions, List.foldl_nil]
    exact checkDBMPropagation_idem _ _
  · intro h
    unfold processOptions
    rcases foldl_setsOrKeepsMode opts h with hk | ⟨m, hm⟩
    · have e := checkDBMPropagation_mode_congr
        (opts.foldl (fun c fn => fn c)
          (checkDBMPropagation (opts.foldl (fun c fn => fn c) cfg) driverName))
        (checkDBMPropagation (opts.foldl (fun c fn => fn c) cfg) driverName) driverName (hk _)
      rw [e, checkDBMPropagation_idem]
    · exact checkDBMPropagation_mode_congr _ _ driverName (by rw [hm, hm])

/-- The amended C19 at the option that flips the mode, for which the first
two parts hold all the same, and at the driver name "sqlserver" with the
option that sets full mode: the mode left is service, also after a second
run. -/
theorem C19_processOptions_mode_witness :
    ((processOptions (exampleDefaults "test" none) "test" [toggleMode]).dbmPropagationMode
        = DBMPropagationMode.full → "test" ≠ "sqlserver" ∧ "test" ≠ "oracle")
      ∧ processOptions (processOptions (exampleDefaults "test" none) "test" [toggleMode]) "test" []
          = processOptions (exampleDefaults "test" none) "test" [toggleMode]
      ∧ (processOptions (processOptions (exampleDefaults "sqlserver" none) "sqlserver"
          [WithDBMPropagation DBMPropagationMode.full]) "sqlserver"
          [WithDBMPropagation DBMPropagationMode.full]).dbmPropagationMode
        = (processOptions (exampleDefaults "sqlserver" none) "sqlserver"
            [WithDBMPropagation DBMPropagationMode.full]).dbmPropagationMode :=
  ⟨(C19_processOptions_mode (exampleDefaults "test" none) "test" [toggleMode]).1,
    (C19_processOptions_mode (exampleDefaults "test" none) "test" [toggleMode]).2.1,
    (C19_processOptions_mode (exampleDefaults "sqlserver" none) "sqlserver"
      [WithDBMPropagation DBMPropagationMode.full]).2.2
      (by
        intro fn hfn
        rw [List.mem_singleton] at hfn
        subst hfn
        exact Or.inr ⟨DBMPropagationMode.full, fun _ => rfl⟩)⟩

/-! ## The traced connector -/

/-- C12: `tracedConnector.Connect` passes the outcome of the wrapped connector
through. Its error is the wrapped connector's error, unchanged; with an error
the connection is nil; with no error the result is a `TracedConn` around the
connection the wrapped connector returned; the wrapped `Connect` is called
once; and error, wrapped connection and calls are the same for any two DSN
parsers. -/
theorem C12_Connect_passes_outcome_through
    (ParseDSN ParseDSN2 : String → String → List (String × String) × GoError)
    (startTraceTask : Context → String → Context) (t : tracedConnector) (ctx : Context) :
    (tracedConnector.Connect ParseDSN startTraceTask t ctx).err
        = (t.connector.Connect (startTraceTask ctx "connect")).2
      ∧ ((t.connector.Connect (startTraceTask ctx "connect")).2 ≠ none →
          (tracedConnector.Connect ParseDSN startTraceTask t ctx).conn = none)
      ∧ ((t.connector.Connect (startTraceTask ctx "connect")).2 = none →
          ∃ tp : traceParams, (tracedConnector.Connect ParseDSN startTraceTask t ctx).conn
            = some { Conn := (t.connector.Connect (startTraceTask ctx "connect")).1,
                     traceParams := tp })
      ∧ connectorCalls (tracedConnector.Connect ParseDSN startTraceTask t ctx).events
          = [startTraceTask ctx "connect"]
      ∧ (tracedConnector.Connect ParseDSN2 startTraceTask t ctx).err
          = (tracedConnector.Connect ParseDSN startTraceTask t ctx).err
      ∧ (tracedConnector.Connect ParseDSN2 startTraceTask t ctx).conn.map TracedConn.Conn
          = (tracedConnector.Connect ParseDSN startTraceTask t ctx).conn.map TracedConn.Conn
      ∧ (tracedConnector.Connect ParseDSN2 startTraceTask t ctx).events
          = (tracedConnector.Connect ParseDSN startTraceTask t ctx).events := by
  unfold tracedConnector.Connect
  simp only [QueryType.str]
  cases h : (t.connector.Connect (startTraceTask ctx "connect")).2 with
  | none => simp [connectorCalls]
  | some e => simp [connectorCalls]

/-- C12 at the connector of the test, whose driver opens connection 7, and at
a connector that fails, with a DSN parser that fails. -/
theorem C12_Connect_passes_outcome_through_witness :
    (tracedConnector.Connect failingParseDSN (fun ctx _ => ctx + 1) testConnector 0).conn.map
        TracedConn.Conn = some (some 7)
      ∧ (tracedConnector.Connect failingParseDSN (fun ctx _ => ctx + 1) failingConnector 0).conn
          = none
      ∧ (tracedConnector.Connect failingParseDSN (fun ctx _ => ctx + 1) failingConnector 0).err
          = some "connection refused" :=
  ⟨by
      have h := (C12_Connect_passes_outcome_through workingParseDSN failingParseDSN
        (fun ctx _ => ctx + 1) testConnector 0).2.2.2.2.2.1
      rw [h]
      decide,
    (C12_Connect_passes_outcome_through failingParseDSN workingParseDSN
      (fun ctx _ => ctx + 1) failingConnector 0).2.1 (by decide),
    by
      rw [(C12_Connect_passes_outcome_through failingParseDSN workingParseDSN
        (fun ctx _ => ctx + 1) failingConnector 0).1]
      decide⟩

end sqltrace

namespace sharedsec

open sqltrace (GoError)

/-! ## Dispatch of the listeners -/

theorem startListeners_NewOperation (parent : Operation) :
    startListeners (NewOperation parent) = startListeners parent := by
  simp [startListeners, NewOperation]

theorem finishListeners_registerFinish_NewOperation (fs : List FinishListener)
    (parent : Operation) :
    finishListeners (registerFinish fs (NewOperation parent)) = fs ++ finishListeners parent := by
  simp [finishListeners, registerFinish, NewOperation]

theorem ExecuteUserIDOperation_eq (parent : Operation) (args : UserIDOperationArgs) :
    ExecuteUserIDOperation parent args
      = dispatchFinish UserIDOperationRes.mk
          ((dispatchStart args (startListeners parent) (none, [])).2 ++ finishListeners parent)
          (dispatchStart args (startListeners parent) (none, [])).1 := by
  simp only [ExecuteUserIDOperation, executedOperation, FinishOperation, StartOperation,
    startListeners_NewOperation, finishListeners_registerFinish_NewOperation]

theorem dispatchStart_append (args : UserIDOperationArgs) (a b : List StartListener)
    (st : GoError × List FinishListener) :
    dispatchStart args (a ++ b) st = dispatchStart args b (dispatchStart args a st) := by
  simp [dispatchStart, List.foldl_append]

theorem dispatchStart_keeps (args : UserIDOperationArgs) (ls : List StartListener) :
    ∀ st : GoError × List FinishListener, (∀ l ∈ ls, startKeepsError l) →
      (dispatchStart args ls st).1 = st.1 := by
  induction ls with
  | nil => intro st _; rfl
  | cons l rest ih =>
    intro st h
    have hl := h l (List.mem_cons_self _ _)
    have hr := ih ((l args st.1).1, st.2 ++ (l args st.1).2)
      (fun g hg => h g (List.mem_cons_of_mem _ hg))
    simp only [dispatchStart, List.foldl_cons] at hr ⊢
    rw [hr]
    exact hl args st.1

theorem dispatchStart_registers (args : UserIDOperationArgs) (ls : List StartListener) :
    ∀ st : GoError × List FinishListener, (∀ l ∈ ls, registersKeepers l) →
      (∀ f ∈ st.2, finishKeepsError f) →
      ∀ f ∈ (dispatchStart args ls st).2, finishKeepsError f := by
  induction ls with
  | nil => intro st _ h; exact h
  | cons l rest ih =>
    intro st h hst
    have hl := h l (List.mem_cons_self _ _)
    have hr := ih ((l args st.1).1, st.2 ++ (l args st.1).2)
      (fun g hg => h g (List.mem_cons_of_mem _ hg))
      (by
        intro f hf
        rcases List.mem_append.mp hf with h1 | h2
        · exact hst f h1
        · exact hl args st.1 f h2)
    simpa only [dispatchStart, List.foldl_cons] using hr

theorem dispatchFinish_keeps (res : UserIDOperationRes) (fs : List FinishListener) :
    ∀ e : GoError, (∀ f ∈ fs, finishKeepsError f) → dispatchFinish res fs e = e := by
  induction fs with
  | nil => intro e _; rfl
  | cons f rest ih =>
    intro e h
    have hf := h f (List.mem_cons_self _ _)
    simp only [dispatchFinish, List.foldl_cons]
    rw [hf res e]
    exact ih e (fun g hg => h g (List.mem_cons_of_mem _ hg))

theorem mem_append_keepers (a b : List FinishListener) (ha : ∀ f ∈ a, finishKeepsError f)
    (hb : ∀ f ∈ b, finishKeepsError f) : ∀ f ∈ a ++ b, finishKeepsError f := by
  intro f hf
  rcases List.mem_append.mp hf with h | h
  · exact ha f h
  · exact hb f h

theorem runAll_append (a b : List (GoError → GoError)) (e : GoError) :
    runAll (a ++ b) e = runAll b (runAll a e) := by
  simp [runAll, List.foldl_append]

theorem dispatchStart_fst (args : UserIDOperationArgs) (ls : List StartListener) :
    ∀ st : GoError × List FinishListener,
      (dispatchStart args ls st).1 = runAll (ls.map (fun l e => (l args e).1)) st.1 := by
  induction ls with
  | nil => intro st; rfl
  | cons l rest ih =>
    intro st
    have h := ih ((l args st.1).1, st.2 ++ (l args st.1).2)
    simpa only [dispatchStart, runAll, List.foldl_cons, List.map_cons] using h

theorem dispatchFinish_eq_runAll (res : UserIDOperationRes) (fs : List FinishListener)
    (e : GoError) : dispatchFinish res fs e = runAll (fs.map (fun f e => f res e)) e := by
  simp [dispatchFinish, runAll, List.foldl_map]

theorem ExecuteUserIDOperation_eq_runAll (parent : Operation) (args : UserIDOperationArgs) :
    ExecuteUserIDOperation parent args = runAll (listenerRuns parent args) none := by
  rw [ExecuteUserIDOperation_eq, listenerRuns, runAll_append, dispatchFinish_eq_runAll,
    dispatchStart_fst]

theorem runAll_of_fixed (post : List (GoError → GoError)) (e : GoError)
    (h : ∀ g ∈ post, g e = e) : runAll post e = e := by
  induction post with
  | nil => rfl
  | cons g rest ih =>
    have hg := h g (List.mem_cons_self _ _)
    simp only [runAll, List.foldl_cons]
    rw [hg]
    exact ih (fun g' hg' => h g' (List.mem_cons_of_mem _ hg'))

theorem runAll_eq_some_iff (runs : List (GoError → GoError)) (e0 : GoError) (err : String)
    (h0 : e0 ≠ some err) :
    runAll runs e0 = some err
      ↔ ∃ (pre post : List (GoError → GoError)) (g : GoError → GoError),
          runs = pre ++ g :: post ∧ runAll pre e0 ≠ some err ∧ g (runAll pre e0) = some err
            ∧ ∀ g' ∈ post, g' (some err) = some err := by
  constructor
  · induction runs using List.reverseRecOn with
    | nil =>
      intro h
      exact absurd h h0
    | append_singleton init g ih =>
      intro h
      rw [runAll_append] at h
      by_cases hinit : runAll init e0 = some err
      · obtain ⟨pre, post, g0, hsplit, hpre, hg0, hpost⟩ := ih hinit
        refine ⟨pre, post ++ [g], g0, by rw [hsplit]; simp, hpre, hg0, ?_⟩
        intro g' hg'
        rcases List.mem_append.mp hg' with h1 | h1
        · exact hpost g' h1
        · rw [List.mem_singleton] at h1
          rw [h1]
          rw [hinit] at h
          simpa [runAll] using h
      · exact ⟨init, [], g, rfl, hinit, by simpa [runAll] using h, by simp⟩
  · rintro ⟨pre, post, g, hsplit, _, hg, hpost⟩
    rw [hsplit, runAll_append]
    have : runAll (g :: post) (runAll pre e0) = runAll post (g (runAll pre e0)) := rfl
    rw [this, hg]
    exact runAll_of_fixed post (some err) hpost

/-- C13, as stated, fails: under a parent where one listener marks the
operation as blocked by setting its `Error` field and a later listener clears
the field, `ExecuteUserIDOperation` returns nil. -/
theorem C13_set_then_clear_returns_nil :
    (denyAllListener { UserID := "alice" } none).1 = some "user blocked"
      ∧ ExecuteUserIDOperation setThenClearRoot { UserID := "alice" } = none := by
  decide

/-- C13, amended: `ExecuteUserIDOperation` starts and finishes one new child
operation of the given parent within the call and returns the `Error` field
as the listeners run for that operation left it. It returns the error `err`
exactly when some listener, of the start or of the finish, set the field to
`err` and every listener run after it left it at `err`; it returns nil when
no listener changes the field, so when no listener is registered. -/
theorem C13_ExecuteUserIDOperation_returns_last_error (parent : Operation)
    (args : UserIDOperationArgs) (err : String) :
    (executedOperation parent args).lifecycle = Lifecycle.finished
      ∧ (executedOperation parent args).Operation.tail = parent
      ∧ ExecuteUserIDOperation parent args = runAll (listenerRuns parent args) none
      ∧ (ExecuteUserIDOperation parent args = some err
          ↔ ∃ (pre post : List (GoError → GoError)) (g : GoError → GoError),
              listenerRuns parent args = pre ++ g :: post
                ∧ runAll pre none ≠ some err ∧ g (runAll pre none) = some err
                ∧ ∀ g' ∈ post, g' (some err) = some err)
      ∧ ((∀ g ∈ listenerRuns parent args, ∀ e : GoError, g e = e) →
          ExecuteUserIDOperation parent args = none)
      ∧ (startListeners parent = [] → finishListeners parent = [] →
          ExecuteUserIDOperation parent args = none) := by
  have hrun := ExecuteUserIDOperation_eq_runAll parent args
  refine ⟨rfl, ?_, hrun, ?_, ?_, ?_⟩
  · simp [executedOperation, FinishOperation, StartOperation, registerFinish, NewOperation]
  · rw [hrun]
    exact runAll_eq_some_iff _ none err (by simp)
  · intro h
    rw [hrun]
    exact runAll_of_fixed _ none (fun g hg => h g hg none)
  · intro hs hf
    rw [hrun, listenerRuns, hs, hf]
    rfl

/-- The amended C13 at a root with one finish listener that blocks: the call
returns the error that the finish listener set. -/
theorem C13_ExecuteUserIDOperation_returns_last_error_witness :
    ExecuteUserIDOperation finishBlockingRoot { UserID := "alice" } = some "user blocked" :=
  (C13_ExecuteUserIDOperation_returns_last_error finishBlockingRoot { UserID := "alice" }
    "user blocked").2.2.2.1.mpr
    ⟨[], [], fun e => blockingFinishListener UserIDOperationRes.mk e, rfl, by decide, rfl,
      by simp⟩

/-- C14: `MonitorUser` returns nil for every user ID when the context holds no
operation under the instrumentation key, and then runs no operation; when the
context holds an operation it returns what `ExecuteUserIDOperation` returns
for that operation as parent and the user ID. -/
theorem C14_MonitorUser (ctx : Context) (userID : String) :
    ((∀ parent : Operation, ctx.instrumentationValue ≠ some (ContextValue.operation parent)) →
        MonitorUser ctx userID = none ∧ monitoredOperation ctx userID = none)
      ∧ (∀ parent : Operation, ctx.instrumentationValue = some (ContextValue.operation parent) →
          MonitorUser ctx userID = ExecuteUserIDOperation parent { UserID := userID }
            ∧ monitoredOperation ctx userID
                = some (executedOperation parent { UserID := userID })) := by
  refine ⟨?_, ?_⟩
  · intro h
    unfold MonitorUser monitoredOperation
    cases hv : ctx.instrumentationValue with
    | none => exact ⟨rfl, rfl⟩
    | some v =>
      cases v with
      | operation op => exact absurd hv (h op)
      | other => exact ⟨rfl, rfl⟩
  · intro parent h
    simp [MonitorUser, monitoredOperation, h]

/-- C14 at a context with no value under the key, at one with a value of
another type, and at one with the monitored root. -/
theorem C14_MonitorUser_witness :
    MonitorUser { instrumentationValue := none } "blocked-user" = none
      ∧ MonitorUser { instrumentationValue := some ContextValue.other } "blocked-user" = none
      ∧ MonitorUser { instrumentationValue := some (ContextValue.operation monitoredRoot) }
          "blocked-user"
        = ExecuteUserIDOperation monitoredRoot { UserID := "blocked-user" } :=
  ⟨((C14_MonitorUser { instrumentationValue := none } "blocked-user").1
      (by intro p h; cases h)).1,
    ((C14_MonitorUser { instrumentationValue := some ContextValue.other } "blocked-user").1
      (by intro p h; cases h)).1,
    ((C14_MonitorUser { instrumentationValue := some (ContextValue.operation monitoredRoot) }
      "blocked-user").2 monitoredRoot rfl).1⟩

/-- The example: the blocked user gets the listener's error, another user nil. -/
theorem ExecuteUserIDOperation_example :
    ExecuteUserIDOperation monitoredRoot { UserID := "blocked-user" } = some "user blocked"
      ∧ ExecuteUserIDOperation monitoredRoot { UserID := "alice" } = none := by
  decide

end sharedsec

namespace listener

theorem entries_onFieldStart (addresses : List String)
    (runWAF : String → Arguments → List String) (m : AllResolvers) (args : FieldArguments)
    (name : String) :
    entries (onFieldStart addresses runWAF m args).1 name
      = entries m name ++ argumentsOf name [args] := by
  unfold onFieldStart argumentsOf
  by_cases he : args.FieldName = ""
  · by_cases hn : args.FieldName = name
    · simp [he, ← hn]
    · simp [he, hn]
      exact fun h => h.symm
  · by_cases hn : args.FieldName = name
    · subst hn
      cases m <;> simp [he, entries]
    · have hn' : name ≠ args.FieldName := fun h => hn h.symm
      cases m <;> simp [he, hn, entries, Function.update_noteq hn']

theorem entries_runFieldStarts (addresses : List String)
    (runWAF : String → Arguments → List String) (starts : List FieldArguments) (name : String) :
    ∀ m : AllResolvers, entries (runFieldStarts addresses runWAF m starts) name
      = entries m name ++ argumentsOf name starts := by
  induction starts with
  | nil => intro m; simp [runFieldStarts, argumentsOf]
  | cons a rest ih =>
    intro m
    have h := ih (onFieldStart addresses runWAF m a).1
    simp only [runFieldStarts, List.foldl_cons] at h ⊢
    rw [h, entries_onFieldStart]
    simp [argumentsOf, List.filter_cons]
    split <;> simp

/-- C18: after any sequence of field starts under one query, the list stored
under each field name is the list of the `Arguments` of the starts with that
name, in the order they occurred; one more start adds exactly its own
arguments under its own name and nothing elsewhere; starts with an empty
field name add nothing. -/
theorem C18_allResolvers_keeps_every_start (addresses : List String)
    (runWAF : String → Arguments → List String) (starts : List FieldArguments)
    (next : FieldArguments) (name : String) :
    entries (runFieldStarts addresses runWAF none starts) name = argumentsOf name starts
      ∧ entries (runFieldStarts addresses runWAF none (starts ++ [next])) name
          = entries (runFieldStarts addresses runWAF none starts) name
              ++ (if next.FieldName = name ∧ name ≠ "" then [next.Arguments] else [])
      ∧ entries (runFieldStarts addresses runWAF none starts) "" = []
      ∧ (entries (runFieldStarts addresses runWAF none starts) name).length
          = (starts.filter (fun a => a.FieldName = name ∧ name ≠ "")).length := by
  have h := entries_runFieldStarts addresses runWAF starts name none
  have h0 : entries (none : AllResolvers) name = [] := rfl
  rw [h0, List.nil_append] at h
  refine ⟨h, ?_, ?_, ?_⟩
  · have h2 := entries_runFieldStarts addresses runWAF (starts ++ [next]) name none
    rw [h0, List.nil_append] at h2
    rw [h2, h]
    unfold argumentsOf
    rw [List.filter_append, List.map_append]
    congr 1
    by_cases hc : next.FieldName = name ∧ name ≠ ""
    · simp [hc]
    · simp [hc]
  · have h3 := entries_runFieldStarts addresses runWAF starts "" none
    rw [h3]
    simp [entries, argumentsOf]
  · rw [h]
    simp [argumentsOf]

end listener

namespace graphql

open sqltrace (GoError)

theorem decorateFields_spec (inst : Instrumentation) (addrs : List Nat) :
    ∀ (resolve : Nat → Option FieldResolveFn) (decorated : List Nat) (a : Nat),
      (a ∈ decorated → (decorateFields inst addrs (resolve, decorated)).1 a = resolve a)
        ∧ (a ∉ decorated → a ∈ addrs →
            (decorateFields inst addrs (resolve, decorated)).1 a
              = some (decorate inst (resolve a)))
        ∧ (a ∉ addrs → (decorateFields inst addrs (resolve, decorated)).1 a = resolve a) := by
  induction addrs with
  | nil =>
    intro resolve decorated a
    simp [decorateFields]
  | cons b rest ih =>
    intro resolve decorated a
    by_cases hb : b ∈ decorated
    · have e : decorateFields inst (b :: rest) (resolve, decorated)
          = decorateFields inst rest (resolve, decorated) := by
        simp [decorateFields, hb]
      rw [e]
      obtain ⟨h1, h2, h3⟩ := ih resolve decorated a
      refine ⟨h1, ?_, ?_⟩
      · intro ha hmem
        have hab : a ≠ b := fun h => ha (h ▸ hb)
        exact h2 ha (by simpa [hab] using hmem)
      · intro hmem
        exact h3 (fun h => hmem (List.mem_cons_of_mem _ h))
    · have e : decorateFields inst (b :: rest) (resolve, decorated)
          = decorateFields inst rest
              (Function.update resolve b (some (decorate inst (resolve b))), b :: decorated) := by
        simp [decorateFields, hb]
      rw [e]
      obtain ⟨h1, h2, h3⟩ :=
        ih (Function.update resolve b (some (decorate inst (resolve b)))) (b :: decorated) a
      refine ⟨?_, ?_, ?_⟩
      · intro ha
        have hab : a ≠ b := fun h => hb (h ▸ ha)
        rw [h1 (List.mem_cons_of_mem _ ha), Function.update_noteq hab]
      · intro ha hmem
        by_cases hab : a = b
        · subst hab
          rw [h1 (List.mem_cons_self _ _), Function.update_same]
        · have hrest : a ∈ rest := by simpa [hab] using hmem
          have hnd : a ∉ b :: decorated := by simp [hab, ha]
          rw [h2 hnd hrest, Function.update_noteq hab]
      · intro hmem
        have hab : a ≠ b := fun h => hmem (h ▸ List.mem_cons_self _ _)
        rw [h3 (fun h => hmem (List.mem_cons_of_mem _ h)), Function.update_noteq hab]

/-- C15: for every query field with a resolver `r`, the resolver that
`NewSchema` installs is the decoration of `r`; on every params it ends as `r`
ends on the same params with only `Context` replaced, and it calls `r` once,
with those params; the listeners, and so a blocking action, change nothing of
the outcome or of the call, and a blocking action adds the blocked tag to the
tags put on the span. -/
theorem C15_installed_resolver_returns_what_the_resolver_returns (inst inst2 : Instrumentation)
    (fields : List (String × Nat)) (resolve : Nat → Option FieldResolveFn) (name : String)
    (a : Nat) (r : FieldResolveFn) (p : ResolveParams)
    (hfield : (name, a) ∈ fields) (hr : resolve a = some r)
    (hid : inst2.newOperation = inst.newOperation) :
    NewSchema inst fields resolve a = some (decorate inst (some r))
      ∧ decorate inst (some r) p
          = r { p with Context :=
                  (graphqlsec.StartResolverOperation p.Context (inst.newOperation p.Context)).1 }
      ∧ (resolveRun inst (some r) p).resolverCalls
          = [{ p with Context :=
                  (graphqlsec.StartResolverOperation p.Context (inst.newOperation p.Context)).1 }]
      ∧ decorate inst2 (some r) p = decorate inst (some r) p
      ∧ (resolveRun inst2 (some r) p).resolverCalls = (resolveRun inst (some r) p).resolverCalls
      ∧ (∀ (data : Option String) (err : GoError) (ctx : graphqlsec.Context)
            (op : graphqlsec.Operation),
          deferredSpanCalls inst ctx op data err
            = [SpanCall.SetEventSpanTags ctx.span (inst.effects ⟨data, err⟩).events,
               SpanCall.SetTags ctx.span
                (op.tags ++ (inst.effects ⟨data, err⟩).tags
                  ++ (if blockedAfter (inst.effects ⟨data, err⟩).actions = true then
                        [(graphqlsec.TagKey.BlockedRequestTag, "true")]
                      else []))]) := by
  have hmem : a ∈ fields.map Prod.snd := List.mem_map.mpr ⟨(name, a), hfield, rfl⟩
  have hrun : ∀ i : Instrumentation, decorate i (some r) p
      = r { p with Context :=
              (graphqlsec.StartResolverOperation p.Context (i.newOperation p.Context)).1 } := by
    intro i
    simp only [decorate, resolveRun]
    split <;> simp_all
  have hcalls : ∀ i : Instrumentation, (resolveRun i (some r) p).resolverCalls
      = [{ p with Context :=
              (graphqlsec.StartResolverOperation p.Context (i.newOperation p.Context)).1 }] := by
    intro i
    simp only [resolveRun]
    split <;> simp_all
  refine ⟨?_, hrun inst, hcalls inst, ?_, ?_, ?_⟩
  · unfold NewSchema
    rw [((decorateFields_spec inst (fields.map Prod.snd)) resolve [] a).2.1 (by simp) hmem, hr]
  · rw [hrun inst2, hrun inst, hid]
  · rw [hcalls inst2, hcalls inst, hid]
  · intro data err ctx op
    unfold deferredSpanCalls
    by_cases hb : blockedAfter (inst.effects ⟨data, err⟩).actions = true
    · simp [hb]
    · simp [hb]

/-- C15 at a schema with one field whose resolver returns the source of its
params, with listeners that signal a blocking action. -/
theorem C15_installed_resolver_returns_what_the_resolver_returns_witness :
    decorate blockingInstrumentation (some echoResolver)
        { Source := "hello", Args := [], Context := { operation := none, span := some 3 } }
      = echoResolver
          { Source := "hello", Args := [],
            Context := (graphqlsec.StartResolverOperation { operation := none, span := some 3 }
              (blockingInstrumentation.newOperation { operation := none, span := some 3 })).1 }
      ∧ decorate quietInstrumentation (some echoResolver)
          { Source := "hello", Args := [], Context := { operation := none, span := some 3 } }
        = decorate blockingInstrumentation (some echoResolver)
          { Source := "hello", Args := [], Context := { operation := none, span := some 3 } } :=
  have h := C15_installed_resolver_returns_what_the_resolver_returns blockingInstrumentation
    quietInstrumentation [("hello", 0)] (fun _ => some echoResolver) "hello" 0 echoResolver
    { Source := "hello", Args := [], Context := { operation := none, span := some 3 } }
    (by simp) rfl rfl
  ⟨h.2.1, h.2.2.2.1⟩

end graphql

namespace graphql

/-- C21: `toError` returns nil exactly when the list of errors is empty; for
one error it returns that error; for `n >= 2` errors it returns an error that
wraps the first one and whose message is the message of the first error
followed by " (and <n-1> more errors)". -/
theorem C21_toError (errs : List FormattedError) :
    (toError errs = none ↔ errs = [])
      ∧ (∀ e : FormattedError, errs = [e] → toError errs = some (Error.formatted e))
      ∧ (∀ (e : FormattedError) (rest : List FormattedError), errs = e :: rest →
          2 ≤ errs.length →
          ∃ err : Error, toError errs = some err
            ∧ err.unwrap = some (Error.formatted e)
            ∧ err.message
                = e.Message ++ " (and " ++ toString (errs.length - 1) ++ " more errors)") := by
  refine ⟨?_, ?_, ?_⟩
  · cases errs with
    | nil => simp [toError]
    | cons e rest => cases rest <;> simp [toError]
  · intro e h
    rw [h]
    rfl
  · intro e rest h hlen
    cases rest with
    | nil => rw [h] at hlen; simp at hlen
    | cons e2 rest2 =>
      rw [h]
      exact ⟨_, rfl, rfl, rfl⟩

/-- C21 at a list of three errors. -/
theorem C21_toError_witness :
    ∃ err : Error, toError [⟨"first"⟩, ⟨"second"⟩, ⟨"third"⟩] = some err
      ∧ err.unwrap = some (Error.formatted ⟨"first"⟩)
      ∧ err.message
          = "first" ++ " (and " ++ toString ([(⟨"first"⟩ : FormattedError), ⟨"second"⟩,
              ⟨"third"⟩].length - 1) ++ " more errors)" :=
  (C21_toError [⟨"first"⟩, ⟨"second"⟩, ⟨"third"⟩]).2.2 ⟨"first"⟩ [⟨"second"⟩, ⟨"third"⟩] rfl
    (by decide)

theorem toError_example :
    (toError [⟨"first"⟩, ⟨"second"⟩, ⟨"third"⟩]).map Error.message
      = some "first (and 2 more errors)" := by
  decide

end graphql

namespace namingschema

/-- C22: for client-outbound and server-inbound schemas with system `s`, V0
is the V0 override when one is set, whatever the suffix, and otherwise
`<s>.<suffix>` with the suffix "request" when none is set; V1 is
`<s>.client.<suffix>` or `<s>.server.<suffix>` and is the same for every V0
override. With no caller options the gRPC client schema has V0 "grpc.client"
and V1 "grpc.client.request", and the GraphQL server schema has V0
"graphql.execute" and V1 "graphql.server.execute". -/
theorem C22_client_server_names (s v : String) (override suffix : Option String) :
    clientOutboundOp.V0 { cfg := { overrideV0 := some v, suffix := suffix }, system := s } = v
      ∧ serverInboundOp.V0 { cfg := { overrideV0 := some v, suffix := suffix }, system := s } = v
      ∧ clientOutboundOp.V0 { cfg := { overrideV0 := none, suffix := suffix }, system := s }
          = s ++ "." ++ suffix.getD "request"
      ∧ serverInboundOp.V0 { cfg := { overrideV0 := none, suffix := suffix }, system := s }
          = s ++ "." ++ suffix.getD "request"
      ∧ clientOutboundOp.V1 { cfg := { overrideV0 := override, suffix := suffix }, system := s }
          = s ++ ".client." ++ suffix.getD "request"
      ∧ serverInboundOp.V1 { cfg := { overrideV0 := override, suffix := suffix }, system := s }
          = s ++ ".server." ++ suffix.getD "request"
      ∧ (NewGRPCClientOp []).V0 = "grpc.client"
      ∧ (NewGRPCClientOp []).V1 = "grpc.client.request"
      ∧ (NewGraphqlServerOp []).V0 = "graphql.execute"
      ∧ (NewGraphqlServerOp []).V1 = "graphql.server.execute" := by
  refine ⟨rfl, rfl, ?_, ?_, ?_, ?_, by decide, by decide, by decide, by decide⟩ <;>
    cases suffix <;> rfl

end namingschema
